import Mathlib

/-!
Verification of the particle-lifecycle core of `GraphEmitter`
(`src/ImprovedParticle/graphEmitter.cpp`, IPS Lite for Torque3D).

Shallow embedding conventions:
* Single-precision floating-point quantities (positions, velocities, seconds
  deltas, coefficients) are modelled as exact rationals; the properties under
  study concern control flow and exact algebraic identities, not rounding.
* `U32`/`S32` counters are modelled as `Nat`/`Int`.  Every subtraction the
  source performs on an unsigned counter is guarded by a comparison, and no
  property under study involves wraparound, so unsigned wraparound is not
  modelled.
* The class members are declared in `graphEmitter.h`, which is not part of the
  repository; their types are reconstructed from their uses in the `.cpp`.
* Calls into the host engine (scene-graph registration, bounding boxes,
  muParser expression evaluation, terrain queries, trigonometric rotation of
  the ejection axis, random number generation, `ParticleData` initialisation)
  are abstracted as oracle parameters (`Draw`, `Env`) or noted in comments;
  the particle-pool, scheduling and aging logic is embedded line by line.
* The intrusive singly-linked live list (`part_list_head.next`) and free list
  (`part_freelist`) are modelled as Lean lists of `Particle` records, head
  first; pointer identity of a pool slot is modelled by the `slot` field.
* A C++ execution that dereferences a null pointer or computes `% 0`
  (undefined behaviour) is modelled as the result `none`.
-/

/-- 3-component single-precision vector `Point3F`, modelled over `ℚ`. -/
structure Point3 where
  x : ℚ
  y : ℚ
  z : ℚ

def Point3.zero : Point3 := ⟨0, 0, 0⟩

instance : Add Point3 := ⟨fun a b => ⟨a.x + b.x, a.y + b.y, a.z + b.z⟩⟩

instance : Sub Point3 := ⟨fun a b => ⟨a.x - b.x, a.y - b.y, a.z - b.z⟩⟩

instance : Neg Point3 := ⟨fun a => ⟨-a.x, -a.y, -a.z⟩⟩

/-- `p * s` : componentwise scaling of a `Point3F` by a scalar. -/
def Point3.scale (p : Point3) (s : ℚ) : Point3 := ⟨p.x * s, p.y * s, p.z * s⟩

/-- `mDot` : dot product. -/
def Point3.dot (a b : Point3) : ℚ := a.x * b.x + a.y * b.y + a.z * b.z

/-- `Point3F::interpolate(a, b, t)` : linear interpolation `a*(1-t) + b*t`. -/
def Point3.interpolate (a b : Point3) (t : ℚ) : Point3 :=
  a.scale (1 - t) + b.scale t

/-- RGBA colour `ColorF`, modelled over `ℚ`. -/
structure ColorV where
  r : ℚ
  g : ℚ
  b : ℚ
  a : ℚ

def ColorV.zero : ColorV := ⟨0, 0, 0, 0⟩

/-- `ColorF::interpolate(c1, c2, f)` : componentwise `c1 + (c2-c1)*f`. -/
def ColorV.interpolate (c1 c2 : ColorV) (f : ℚ) : ColorV :=
  ⟨c1.r + (c2.r - c1.r) * f, c1.g + (c2.g - c1.g) * f,
   c1.b + (c2.b - c1.b) * f, c1.a + (c2.a - c1.a) * f⟩

/-- `ParticleData::PDC_NUM_KEYS` : number of keyframes per visual template
(engine constant, value 4). -/
def PDC_NUM_KEYS : Nat := 4

/-- The per-particle visual/physics template (`ParticleData`, host-engine
datablock).  Only the fields the emitter core reads are modelled. -/
structure PData where
  dragCoefficient : ℚ
  windCoefficient : ℚ
  gravityCoefficient : ℚ
  times : Fin 4 → ℚ
  colors : Fin 4 → ColorV
  sizes : Fin 4 → ℚ

/-- A pool slot record (`Particle`, declared in the engine's particle header).
`slot` models the pointer identity of the record inside the arena chunks; the
intrusive `next` pointer is modelled by list position. -/
structure Particle where
  slot : Nat
  pos : Point3
  vel : Point3
  acc : Point3
  orientDir : Point3
  relPos : Point3
  color : ColorV
  size : ℚ
  currentAge : Nat
  totalLifetime : Nat
  dataBlock : PData

/-- `GraphEmitterData` : the emitter-level datablock (stochastic emission
parameters and render/override flags read by the core). -/
structure GraphEmitterData where
  ejectionPeriodMS : Int
  periodVarianceMS : Int
  ejectionVelocity : ℚ
  velocityVariance : ℚ
  ejectionOffset : ℚ
  thetaMin : ℚ
  thetaMax : ℚ
  phiReferenceVel : ℚ
  phiVariance : ℚ
  overrideAdvance : Bool
  useEmitterSizes : Bool
  useEmitterColors : Bool
  lifetimeMS : Int
  lifetimeVarianceMS : Int
  partListInitSize : Int
  renderReflection : Bool
  particleDataBlocks : List PData

/-- The fields of `GraphEmitterNode` read by `emitParticles`/`addParticle`:
the stand-alone emission parameters and the shutting-down flag.  The node's
graph-progress bookkeeping (`particleProg`, boundary callbacks, muParser
expressions) is host-side scripted state outside the particle core and is
abstracted into the `Draw` oracle. -/
structure GNode where
  standAloneEmitter : Bool
  sa_ejectionPeriodMS : Int
  sa_periodVarianceMS : Int
  sa_ejectionVelocity : ℚ
  sa_velocityVariance : ℚ
  sa_ejectionOffset : ℚ
  shuttingDown : Bool

/-- One spawn's worth of external non-determinism: the raw `gRandGen` draws
and the results of the external computations the source feeds them into
(trigonometric rotation of the ejection axis, muParser position evaluation,
`ParticleData::initializeParticle`'s lifetime draw). -/
structure Draw where
  periodJitter : Nat
  velRandF : ℚ
  dBlockRand : Nat
  lifetime : Nat
  ejectionAxis : Point3
  parserPos : Point3
  randF1 : ℚ
  randF2 : ℚ
  randF3 : ℚ

/-- Read-mostly external state consulted by the integrator: the process-wide
wind velocity, the collision world (a ray cast returning a hit normal), and
the attraction-force pass (whose target lookup is external `Sim::findObject`
name resolution, abstracted as a function from particle position to the
accumulated acceleration). -/
structure Env where
  wind : Point3
  castRay : Point3 → Point3 → Option Point3
  attrAcc : Point3 → Point3

/-- The constant downward gravity vector `Point3F(0, 0, -9.81)`. -/
def gravAcc : Point3 := ⟨0, 0, -981/100⟩

/-- The mutable emitter state: pool, scheduler clocks and flags
(constructor at graphEmitter.cpp:687-720, members from the missing header). -/
structure GraphEmitter where
  mDead : Bool
  mDeleteWhenEmpty : Bool
  mDeleteOnTick : Bool
  mInternalClock : Nat
  mNextParticleTime : Nat
  mLastPosition : Point3
  mHasLastPosition : Bool
  mLifetimeMS : Int
  mElapsedTimeMS : Int
  n_parts : Int
  n_part_capacity : Int
  part_list : List Particle
  part_freelist : List Particle
  oldTime : Nat
  parentNodePos : Point3
  sticky : Bool
  attractionActive : Bool
  colors : Fin 4 → ColorV
  sizes : Fin 4 → ℚ
  mDataBlock : GraphEmitterData

/-- The keyframe interpolation loop of `updateKeyData` (graphEmitter.cpp:
1568-1602): find the first keyframe index `i ∈ [1, PDC_NUM_KEYS)` with
`times[i] ≥ t` and linearly interpolate colour and size in the bracketing
pair, from the emitter-level tables or the particle template's tables
according to the `useEmitterColors`/`useEmitterSizes` flags; if no keyframe
qualifies the attributes are left unchanged. -/
def keyInterp (data : GraphEmitterData) (ecolors : Fin 4 → ColorV)
    (esizes : Fin 4 → ℚ) (part : Particle) (t : ℚ) : ColorV × ℚ :=
  let at_i : Fin 4 → Fin 4 → ColorV × ℚ := fun i j =>
    let firstPart := (t - part.dataBlock.times j) /
      (part.dataBlock.times i - part.dataBlock.times j)
    (if data.useEmitterColors then
        ColorV.interpolate (ecolors j) (ecolors i) firstPart
      else
        ColorV.interpolate (part.dataBlock.colors j) (part.dataBlock.colors i)
          firstPart,
     if data.useEmitterSizes then
        esizes j * (1 - firstPart) + esizes i * firstPart
      else
        part.dataBlock.sizes j * (1 - firstPart) +
          part.dataBlock.sizes i * firstPart)
  if part.dataBlock.times 1 ≥ t then at_i 1 0
  else if part.dataBlock.times 2 ≥ t then at_i 2 1
  else if part.dataBlock.times 3 ≥ t then at_i 3 2
  else (part.color, part.size)

/-- `GraphEmitter::updateKeyData` (graphEmitter.cpp:1559-1603): clamp
`totalLifetime` to at least 1, compute the normalised age `t`, and refresh
the keyframed colour and size.  The `AssertFatal(t <= 1.0f)` on line 1566 is
modelled separately as `updateKeyDataAssert`. -/
def updateKeyData (data : GraphEmitterData) (ecolors : Fin 4 → ColorV)
    (esizes : Fin 4 → ℚ) (part : Particle) : Particle :=
  let part1 := if part.totalLifetime < 1 then {part with totalLifetime := 1}
    else part
  let t : ℚ := (part1.currentAge : ℚ) / (part1.totalLifetime : ℚ)
  let cs := keyInterp data ecolors esizes part1 t
  {part1 with color := cs.1, size := cs.2}

/-- The normalised age `t = currentAge / totalLifetime` computed by
`updateKeyData` after its lifetime clamp. -/
def keyT (part : Particle) : ℚ :=
  (part.currentAge : ℚ) /
    ((if part.totalLifetime < 1 then 1 else part.totalLifetime : Nat) : ℚ)

/-- The condition of `AssertFatal(t <= 1.0f, "Out out bounds filter function
for particle.")` at graphEmitter.cpp:1566. -/
def updateKeyDataAssert (part : Particle) : Prop := keyT part ≤ 1

/-- Modelled from the spec: `ParticleData::initializeParticle` is host-engine
code not in this repository.  Per the spec's data model it binds the randomly
chosen visual/physics template to the particle and assigns its total lifetime
(drawn externally from the template's lifetime parameters, supplied here as
`lifetimeDraw`); the inherited-velocity adjustment it also performs is
irrelevant to the properties under study and is not modelled. -/
def initializeParticle (p : Particle) (pd : PData) (lifetimeDraw : Nat)
    (_inheritVel : Point3) : Particle :=
  {p with dataBlock := pd, totalLifetime := lifetimeDraw}

/-- A freshly default-constructed pool slot inside a newly allocated chunk
(field contents before first initialisation are irrelevant). -/
def blankPData : PData :=
  { dragCoefficient := 0,
    windCoefficient := 0,
    gravityCoefficient := 0,
    times := fun _ => 0,
    colors := fun _ => ColorV.zero,
    sizes := fun _ => 0 }

def blankParticle (slot : Nat) : Particle :=
  { slot := slot,
    pos := Point3.zero,
    vel := Point3.zero,
    acc := Point3.zero,
    orientDir := Point3.zero,
    relPos := Point3.zero,
    color := ColorV.zero,
    size := 0,
    currentAge := 0,
    totalLifetime := 0,
    dataBlock := blankPData }

/-- The pool section shared by both `addParticle` overloads
(graphEmitter.cpp:1256-1274 and 1317-1335): increment `n_parts`; if the new
count exceeds the capacity or the initial list size, append a fresh 16-slot
chunk whose slots are pushed onto the free list (slot identities continue
from the current capacity, as chunks are appended and never freed) and grow
`n_part_capacity` by 16 (`allocPrimBuffer` is an external renderer
notification); finally pop the free-list head.  A pop from an empty free
list (a null dereference in the source) is `none`. -/
def addParticleAlloc (st : GraphEmitter) : Option (Particle × GraphEmitter) :=
  let n1 : Int := st.n_parts + 1
  let st1 :=
    if n1 > st.n_part_capacity ∨ n1 > st.mDataBlock.partListInitSize then
      { st with
        n_part_capacity := st.n_part_capacity + 16,
        part_freelist := (List.range 16).foldl
          (fun fl i => blankParticle (st.n_part_capacity.toNat + i) :: fl)
          st.part_freelist }
    else st
  match st1.part_freelist with
  | [] => none
  | pNew :: rest => some (pNew, {st1 with n_parts := n1, part_freelist := rest})

/-- `GraphEmitter::addParticle(pos, axis, vel, axisx)`
(graphEmitter.cpp:1250-1309), the overload used by the hemisphere burst.
The theta/phi cone rotation of `axis` about `axisx` is trigonometric external
math, abstracted as `d.ejectionAxis`.  The template choice
`gRandGen.randI() % particleDataBlocks.size()` is undefined behaviour when
the bound template list is empty (`% 0`), modelled as `none`.  In the source
the slot is linked to the live-list head before its fields are written; the
model inserts the fully written record, which yields the same state. -/
def addParticle (st : GraphEmitter) (pos _axis vel _axisx : Point3)
    (d : Draw) : Option GraphEmitter :=
  match addParticleAlloc st with
  | none => none
  | some (pNew, st1) =>
    let ejectionAxis := d.ejectionAxis
    let initialVel : ℚ := st1.mDataBlock.ejectionVelocity +
      (st1.mDataBlock.velocityVariance * 2 * d.velRandF -
        st1.mDataBlock.velocityVariance)
    match st1.mDataBlock.particleDataBlocks with
    | [] => none
    | b :: bs =>
      let pd := (b :: bs).get
        ⟨d.dBlockRand % (b :: bs).length, Nat.mod_lt _ (Nat.succ_pos _)⟩
      let p0 :=
        { pNew with
          pos := pos + ejectionAxis.scale st1.mDataBlock.ejectionOffset,
          vel := ejectionAxis.scale initialVel,
          orientDir := ejectionAxis,
          acc := Point3.zero,
          currentAge := 0 }
      let p1 := initializeParticle p0 pd d.lifetime vel
      let p2 := updateKeyData st1.mDataBlock st1.colors st1.sizes p1
      some {st1 with part_list := p2 :: st1.part_list}

/-- `GraphEmitter::addParticle(pos, axis, vel, axisx, nodeDat)`
(graphEmitter.cpp:1311-1477), the overload used by the path-segment
scheduler.  A null `nodeDat` (the defaulted argument of the point overload)
is dereferenced immediately, modelled as `none`.  If the node is shutting
down, the slot is linked into the live list but none of its fields are
initialised (they keep the previous occupant's values).  Otherwise the
muParser graph functions are evaluated and the spawn position is overwritten
with the rotated function result (abstracted as `d.parserPos`) scaled by the
stand-alone ejection offset; the node's progress bookkeeping mutates only
node/script state outside the particle core. -/
def addParticleWithNode (st : GraphEmitter) (pos _axis vel _axisx : Point3)
    (node : Option GNode) (d : Draw) : Option GraphEmitter :=
  match node with
  | none => none
  | some nd =>
    match addParticleAlloc st with
    | none => none
    | some (pNew, st1) =>
      let ejectionAxis := d.ejectionAxis
      let initialVel : ℚ :=
        if nd.standAloneEmitter then
          nd.sa_ejectionVelocity +
            (nd.sa_velocityVariance * 2 * d.velRandF - nd.sa_velocityVariance)
        else
          st1.mDataBlock.ejectionVelocity +
            (st1.mDataBlock.velocityVariance * 2 * d.velRandF -
              st1.mDataBlock.velocityVariance)
      let eoff : ℚ :=
        if nd.standAloneEmitter then nd.sa_ejectionOffset
        else st1.mDataBlock.ejectionOffset
      let p1 := {pNew with pos := pos + ejectionAxis.scale eoff}
      if nd.shuttingDown then
        some {st1 with part_list := p1 :: st1.part_list}
      else
        let offset := d.parserPos.scale nd.sa_ejectionOffset
        let p2 :=
          { p1 with
            pos := pos + offset,
            relPos := offset,
            vel := ejectionAxis.scale initialVel,
            orientDir := ejectionAxis,
            acc := Point3.zero,
            currentAge := 0 }
        match st1.mDataBlock.particleDataBlocks with
        | [] => none
        | b :: bs =>
          let pd := (b :: bs).get
            ⟨d.dBlockRand % (b :: bs).length, Nat.mod_lt _ (Nat.succ_pos _)⟩
          let p3 := updateKeyData st1.mDataBlock st1.colors st1.sizes
            (initializeParticle p2 pd d.lifetime vel)
          some { st1 with
                 oldTime := st1.mInternalClock,
                 parentNodePos := pos,
                 part_list := p3 :: st1.part_list }

/-- The override-advance block of the spawn loop (graphEmitter.cpp:1104-1132):
if `overrideAdvance` is false and the leftover segment time after the spawn
instant is nonzero, the just-spawned live-list head is either expired to the
free list (leftover exceeds its total lifetime) or forward-integrated by the
leftover time (drag, wind, gravity, then velocity, then position, then
`updateKeyData`).  The nested `if (advanceMS != 0)` of line 1117 is subsumed
by the outer guard.  An empty live list (a null-head dereference in the
source) cannot occur right after a spawn; it is modelled as a no-op. -/
def advanceCollapse (env : Env) (advanceMS : Nat) (st : GraphEmitter) :
    GraphEmitter :=
  if st.mDataBlock.overrideAdvance = false ∧ advanceMS ≠ 0 then
    match st.part_list with
    | [] => st
    | last_part :: rest =>
      if advanceMS > last_part.totalLifetime then
        { st with
          part_list := rest,
          n_parts := st.n_parts - 1,
          part_freelist := last_part :: st.part_freelist }
      else
        let t : ℚ := (advanceMS : ℚ) / 1000
        let a := last_part.acc -
            last_part.vel.scale last_part.dataBlock.dragCoefficient -
            env.wind.scale last_part.dataBlock.windCoefficient +
            gravAcc.scale last_part.dataBlock.gravityCoefficient
        let vel2 := last_part.vel + a.scale t
        let p2 := updateKeyData st.mDataBlock st.colors st.sizes
          {last_part with vel := vel2, pos := last_part.pos + vel2.scale t}
        {st with part_list := p2 :: rest}
  else st

/-- The next inter-spawn period draw (graphEmitter.cpp:1057-1076):
`ejectionPeriodMS ± (randI() % (2·variance + 1) − variance)`, taken from the
node's stand-alone values or the emitter datablock. -/
def periodDraw (nd : GNode) (data : GraphEmitterData) (d : Draw) : Int :=
  if nd.standAloneEmitter then
    nd.sa_ejectionPeriodMS +
      (if nd.sa_periodVarianceMS ≠ 0 then
        (d.periodJitter : Int) % (2 * nd.sa_periodVarianceMS + 1) -
          nd.sa_periodVarianceMS
      else 0)
  else
    data.ejectionPeriodMS +
      (if data.periodVarianceMS ≠ 0 then
        (d.periodJitter : Int) % (2 * data.periodVarianceMS + 1) -
          data.periodVarianceMS
      else 0)

/-- Result of the pending sub-period handling at the head of the path-segment
`emitParticles`. -/
inductive PendingStep where
  | deferred (st : GraphEmitter)
  | proceed (st : GraphEmitter) (currTime : Nat) (ps : List Point3)

/-- The pending sub-period block (graphEmitter.cpp:1023-1053): if a pending
time remains and exceeds the segment duration, defer entirely (decrement the
pending counter by the duration, advance the internal clock by the duration,
remember the segment end, return); otherwise consume it by spawning one
particle at the interpolated position and resetting the pending counter. -/
def pendingPhase (st : GraphEmitter) (start end_ axis velocity : Point3)
    (numMS : Nat) (node : Option GNode) (d : Draw) : Option PendingStep :=
  if st.mNextParticleTime = 0 then some (.proceed st 0 [])
  else if st.mNextParticleTime > numMS then
    some (.deferred
      { st with
        mNextParticleTime := st.mNextParticleTime - numMS,
        mInternalClock := st.mInternalClock + numMS,
        mLastPosition := end_,
        mHasLastPosition := true })
  else
    let currTime := st.mNextParticleTime
    let st1 := {st with mInternalClock := st.mInternalClock + currTime}
    let pos := Point3.interpolate start end_ ((currTime : ℚ) / (numMS : ℚ))
    match addParticleWithNode st1 pos axis velocity axis node d with
    | none => none
    | some st2 => some (.proceed {st2 with mNextParticleTime := 0} currTime [pos])

/-- The while loop of the path-segment `emitParticles`
(graphEmitter.cpp:1055-1133): while the elapsed time within the segment is
below the duration, draw the next period; if the next spawn would cross the
segment boundary, save the remainder as the pending sub-period, advance the
clock by the remaining time and stop; otherwise advance, spawn at the
interpolated position and apply the override-advance block.  The returned
list records the interpolated emission positions, in spawn order.  `fuel`
bounds the recursion; every iteration consumes at least one millisecond of
the segment, so `numMS + 1` is always sufficient and the fuel-exhaustion
branch is unreachable from `emitParticlesPath`. -/
def emitLoop (env : Env) (node : Option GNode)
    (start end_ axis velocity : Point3) (numMS : Nat) (ρ : Nat → Draw) :
    Nat → Nat → Nat → GraphEmitter → List Point3 →
    Option (GraphEmitter × List Point3)
  | 0, _, _, _, _ => none
  | fuel + 1, k, currTime, st, ps =>
    if currTime < numMS then
      match node with
      | none => none
      | some nd =>
        let nextTime : Int := periodDraw nd st.mDataBlock (ρ k)
        if nextTime ≤ 0 then none
        else if numMS < currTime + nextTime.toNat then
          some
            ({ st with
               mNextParticleTime := (currTime + nextTime.toNat) - numMS,
               mInternalClock := st.mInternalClock + (numMS - currTime) }, ps)
        else
          let currTime2 := currTime + nextTime.toNat
          let st1 := {st with mInternalClock := st.mInternalClock + nextTime.toNat}
          let pos := Point3.interpolate start end_ ((currTime2 : ℚ) / (numMS : ℚ))
          match addParticleWithNode st1 pos axis velocity axis (some nd) (ρ k) with
          | none => none
          | some st2 =>
            emitLoop env node start end_ axis velocity numMS ρ fuel (k + 1)
              currTime2 (advanceCollapse env (numMS - currTime2) st2)
              (ps ++ [pos])
    else some (st, ps)

/-- `GraphEmitter::emitParticles(start, end, axis, velocity, numMilliseconds,
node)` (graphEmitter.cpp:995-1148), the path-segment scheduler: dead check,
empty-template check, lifetime time-box, pending sub-period handling, spawn
loop, then remember the segment end as the last position.  `updateBBox` and
scene registration are external scene-graph effects with no particle-pool
state.  The perpendicular `axisx` basis vector is trigonometric input to the
abstracted axis rotation and is not computed here. -/
def emitParticlesPath (env : Env) (st : GraphEmitter)
    (start end_ axis velocity : Point3) (numMS : Nat) (node : Option GNode)
    (ρ : Nat → Draw) : Option (GraphEmitter × List Point3) :=
  if st.mDead then some (st, [])
  else if st.mDataBlock.particleDataBlocks.isEmpty then some (st, [])
  else if 0 < st.mLifetimeMS ∧ st.mLifetimeMS < st.mElapsedTimeMS then
    some (st, [])
  else
    match pendingPhase st start end_ axis velocity numMS node (ρ 0) with
    | none => none
    | some (.deferred st1) => some (st1, [])
    | some (.proceed st1 currTime ps) =>
      match emitLoop env node start end_ axis velocity numMS ρ
        (numMS + 1) 1 currTime st1 ps with
      | none => none
      | some (st2, ps2) =>
        some ({st2 with mLastPosition := end_, mHasLastPosition := true}, ps2)

/-- `GraphEmitter::emitParticles(point, useLastPosition, axis, velocity,
numMilliseconds)` (graphEmitter.cpp:965-990): dead check, lifetime time-box,
then forward to the path overload from the last known position; the node
argument is defaulted to null. -/
def emitParticlesPoint (env : Env) (st : GraphEmitter) (point : Point3)
    (useLastPosition : Bool) (axis velocity : Point3) (numMS : Nat)
    (ρ : Nat → Draw) : Option (GraphEmitter × List Point3) :=
  if st.mDead then some (st, [])
  else if 0 < st.mLifetimeMS ∧ st.mLifetimeMS < st.mElapsedTimeMS then
    some (st, [])
  else
    let realStart :=
      if useLastPosition && st.mHasLastPosition then st.mLastPosition else point
    emitParticlesPath env st realStart point axis velocity numMS none ρ

/-- The burst loop of the hemisphere `emitParticles`
(graphEmitter.cpp:1192-1203): `count` independent uniform draws in the local
basis; the spawn direction is the normalised position (irrational
normalisation abstracted into the per-spawn `Draw`). -/
def hemisphereLoop (rCenter : Point3) (radius : ℚ) (velocity : Point3)
    (axisx axisy axisz : Point3) (ρ : Nat → Draw) :
    Nat → Nat → GraphEmitter → Option GraphEmitter
  | 0, _, st => some st
  | n + 1, i, st =>
    let d := ρ i
    let pos0 := axisx.scale (radius * (1 - 2 * d.randF1)) +
      axisy.scale (radius * (1 - 2 * d.randF2)) +
      axisz.scale (radius * d.randF3)
    match addParticle st (pos0 + rCenter) pos0 velocity axisz d with
    | none => none
    | some st1 => hemisphereLoop rCenter radius velocity axisx axisy axisz ρ n
        (i + 1) st1

/-- `GraphEmitter::emitParticles(rCenter, rNormal, radius, velocity, count)`
(graphEmitter.cpp:1153-1218), the hemisphere burst: dead check, lifetime
time-box, then `count` spawns through the template-choosing `addParticle`.
The orthonormal basis is computed from `rNormal` by cross products and
normalisation (irrational), supplied here as parameters; the world-box
update and scene registration are external. -/
def emitParticlesHemisphere (st : GraphEmitter) (_rCenter _rNormal : Point3)
    (radius : ℚ) (velocity : Point3) (count : Int)
    (axisx axisy axisz : Point3) (ρ : Nat → Draw) : Option GraphEmitter :=
  if st.mDead then some st
  else if 0 < st.mLifetimeMS ∧ st.mLifetimeMS < st.mElapsedTimeMS then some st
  else
    match hemisphereLoop _rCenter radius velocity axisx axisy axisz ρ
      count.toNat 0 st with
    | none => none
    | some st1 => some {st1 with mHasLastPosition := false}

/-- Age one particle by the tick's millisecond delta
(`part->currentAge += numMSToUpdate`, graphEmitter.cpp:1527). -/
def ageParticle (ms : Nat) (p : Particle) : Particle :=
  {p with currentAge := p.currentAge + ms}

/-- The dead-particle removal walk of `advanceTime`
(graphEmitter.cpp:1524-1540): age every particle on the live list by `ms` and
split off those whose age now strictly exceeds their lifetime, preserving
traversal order in both outputs (the trailing-pointer surgery of the
source). -/
def agePass (ms : Nat) : List Particle → List Particle × List Particle
  | [] => ([], [])
  | p :: rest =>
    let p1 := ageParticle ms p
    let r := agePass ms rest
    if p1.totalLifetime < p1.currentAge then (r.1, p1 :: r.2)
    else (p1 :: r.1, r.2)

/-- The collision response of `GraphEmitter::update`
(graphEmitter.cpp:1668-1674): reflect the velocity about the hit normal with
damping 0.8, exactly as written in the source:
`v' = -(v - (v - (v·n/|n|²)·n)·2·0.8)`. -/
def reflectVel (v n : Point3) : Point3 :=
  let proj := n.scale (v.dot n / n.dot n)
  let between := v - proj
  Neg.neg (v - (between.scale 2).scale (8/10))

/-- The per-particle body of `GraphEmitter::update`
(graphEmitter.cpp:1612-1682): optional attraction pass (which zeroes `acc`
and accumulates forces toward externally resolved targets, abstracted as
`env.attrAcc`), drag/wind/gravity acceleration, forward-Euler velocity,
optional collision reflection with damping 0.8, forward-Euler position,
sticky override, then keyframe refresh. -/
def updateStep (env : Env) (st : GraphEmitter) (ms : Nat) (part : Particle) :
    Particle :=
  let t : ℚ := (ms : ℚ) / 1000
  let part1 :=
    if st.attractionActive then {part with acc := env.attrAcc part.pos} else part
  let a := part1.acc - part1.vel.scale part1.dataBlock.dragCoefficient -
    env.wind.scale part1.dataBlock.windCoefficient +
    gravAcc.scale part1.dataBlock.gravityCoefficient
  let vel1 := part1.vel + a.scale t
  let vel2 :=
    match env.castRay part1.pos (part1.pos + vel1.scale t) with
    | some n => reflectVel vel1 n
    | none => vel1
  let pos2 :=
    if st.sticky then st.parentNodePos + part1.relPos
    else part1.pos + vel2.scale t
  updateKeyData st.mDataBlock st.colors st.sizes
    {part1 with vel := vel2, pos := pos2}

/-- `GraphEmitter::update(ms)` (graphEmitter.cpp:1608-1683): integrate every
live particle. -/
def update (env : Env) (ms : Nat) (st : GraphEmitter) : GraphEmitter :=
  {st with part_list := st.part_list.map (updateStep env st ms)}

/-- `GraphEmitter::advanceTime(dt)` (graphEmitter.cpp:1506-1554): ignore
deltas below the 0.00001 s epsilon; clamp to 0.5 s; dead check; accumulate
the elapsed-time counter; convert to whole milliseconds (no-op when zero);
age and evict; schedule deletion when empty if so flagged; otherwise run the
physics pass.  `Parent::advanceTime` is host-engine bookkeeping with no
particle state. -/
def advanceTime (env : Env) (dt0 : ℚ) (st : GraphEmitter) : GraphEmitter :=
  if dt0 < 1/100000 then st
  else
    let dt := if dt0 > 1/2 then 1/2 else dt0
    if st.mDead then st
    else
      let msInt : Int := ⌊dt * 1000⌋
      let st1 := {st with mElapsedTimeMS := st.mElapsedTimeMS + msInt}
      let numMS := msInt.toNat
      if numMS = 0 then st1
      else
        let ar := agePass numMS st1.part_list
        let st2 :=
          { st1 with
            part_list := ar.1,
            part_freelist := ar.2.reverse ++ st1.part_freelist,
            n_parts := st1.n_parts - (ar.2.length : Int) }
        if st2.n_parts < 1 ∧ st2.mDeleteWhenEmpty then
          {st2 with mDeleteOnTick := true}
        else if st2.n_parts > 0 then update env numMS st2
        else st2

/-- `GraphEmitter::prepRenderImage` (graphEmitter.cpp:848-908): skip
reflection passes unless enabled, never render into shadows, and perform no
vertex-buffer work when the emitter is dead or holds no live particle;
otherwise submit one render instance whose `count` is `n_parts` (the
vertex-buffer fill `copyToVB` reads particle state only). -/
def prepRenderImage (st : GraphEmitter) (reflectPass shadowPass : Bool) :
    Option Int :=
  if reflectPass && !st.mDataBlock.renderReflection then none
  else if shadowPass then none
  else if st.mDead || decide (st.n_parts = 0) || st.part_list.isEmpty then none
  else some st.n_parts

/-- The pool section of `GraphEmitter::onNewDataBlock`
(graphEmitter.cpp:777-817): draw the emitter lifetime (period jitter supplied
as the raw `randI()` value `j`), and when `partListInitSize` is positive,
discard any previous chunks and build one chunk of that many slots, all
threaded onto the free list in ascending order, with an empty live list. -/
def onNewDataBlockPool (data : GraphEmitterData) (j : Nat)
    (st : GraphEmitter) : GraphEmitter :=
  let lifetime : Int := data.lifetimeMS +
    (if data.lifetimeVarianceMS ≠ 0 then
      (j : Int) % (2 * data.lifetimeVarianceMS + 1) - data.lifetimeVarianceMS
    else 0)
  let st1 := {st with mDataBlock := data, mLifetimeMS := lifetime}
  if 0 < data.partListInitSize then
    { st1 with
      n_part_capacity := data.partListInitSize,
      part_freelist := (List.range data.partListInitSize.toNat).map
        blankParticle,
      part_list := [],
      n_parts := 0 }
  else st1

/-- The slot identities of a particle list. -/
def slots (l : List Particle) : List Nat := l.map (fun p => p.slot)

/-- The pool invariant over its four components: the live count equals the
live-list length, live plus free slots equal the allocated capacity, every
slot is on the live list or the free list at most once overall (no
double-free, no slot simultaneously live and free), and every slot identity
is within the allocated arena. -/
def PoolInvP (live free : List Particle) (n cap : Int) : Prop :=
  n = live.length ∧
  (live.length : Int) + (free.length : Int) = cap ∧
  (slots (live ++ free)).Nodup ∧
  ∀ s ∈ slots (live ++ free), s < cap.toNat

/-- The pool invariant of the spec, on an emitter state. -/
def PoolInv (st : GraphEmitter) : Prop :=
  PoolInvP st.part_list st.part_freelist st.n_parts st.n_part_capacity

/-- One externally triggered operation on the emitter (the claim quantifies
over arbitrary sequences of allocations and releases). -/
inductive Op where
  | opAddParticle (pos axis vel axisx : Point3) (d : Draw)
  | opAddParticleWithNode (pos axis vel axisx : Point3) (node : Option GNode)
      (d : Draw)
  | opEmitPath (env : Env) (start end_ axis velocity : Point3) (numMS : Nat)
      (node : Option GNode) (ρ : Nat → Draw)
  | opEmitPoint (env : Env) (point : Point3) (useLast : Bool)
      (axis velocity : Point3) (numMS : Nat) (ρ : Nat → Draw)
  | opEmitHemisphere (rCenter rNormal : Point3) (radius : ℚ)
      (velocity : Point3) (count : Int) (axisx axisy axisz : Point3)
      (ρ : Nat → Draw)
  | opAdvanceTime (env : Env) (dt : ℚ)

/-- Apply one operation. -/
def applyOp (st : GraphEmitter) : Op → Option GraphEmitter
  | .opAddParticle pos axis vel axisx d => addParticle st pos axis vel axisx d
  | .opAddParticleWithNode pos axis vel axisx node d =>
      addParticleWithNode st pos axis vel axisx node d
  | .opEmitPath env s e a v n node ρ =>
      (emitParticlesPath env st s e a v n node ρ).map Prod.fst
  | .opEmitPoint env p u a v n ρ =>
      (emitParticlesPoint env st p u a v n ρ).map Prod.fst
  | .opEmitHemisphere c nrm r v cnt ax ay az ρ =>
      emitParticlesHemisphere st c nrm r v cnt ax ay az ρ
  | .opAdvanceTime env dt => some (advanceTime env dt st)

/-- Run a sequence of operations, propagating undefined behaviour. -/
def runOps (st : GraphEmitter) : List Op → Option GraphEmitter
  | [] => some st
  | op :: rest =>
    match applyOp st op with
    | none => none
    | some st1 => runOps st1 rest

/-- The millisecond delta of one `advanceTime(dt)` call after the epsilon
gate: the 0.5 s clamp followed by integer truncation. -/
def tickMS (dt : ℚ) : Nat :=
  (⌊(if dt > (1/2 : ℚ) then (1/2 : ℚ) else dt) * 1000⌋).toNat

/-- The ejection period selected by the spawn loop: the node's stand-alone
period or the datablock period. -/
def effPeriod (nd : GNode) (data : GraphEmitterData) : Int :=
  if nd.standAloneEmitter then nd.sa_ejectionPeriodMS else data.ejectionPeriodMS

/-- The period variance selected by the spawn loop. -/
def effVariance (nd : GNode) (data : GraphEmitterData) : Int :=
  if nd.standAloneEmitter then nd.sa_periodVarianceMS else data.periodVarianceMS

/-- The slot identity and aging fields of a particle (the fields the
eviction pass is specified over). -/
def ageview (p : Particle) : Nat × Nat × Nat :=
  (p.slot, p.currentAge, p.totalLifetime)

/-- Survival test of the eviction pass (kept iff `currentAge ≤ totalLifetime`). -/
def agekeep (p : Particle) : Bool := decide (p.currentAge ≤ p.totalLifetime)

/-- Eviction test of the eviction pass (`currentAge > totalLifetime`). -/
def agedrop (p : Particle) : Bool := decide (p.totalLifetime < p.currentAge)

/-- Concrete fixture: a particle visual/physics template. -/
def wpd : PData := blankPData

/-- Concrete fixture: an emitter datablock with a 100 ms constant period,
zero variance, one bound template, and an initial pool size of 8. -/
def wdata : GraphEmitterData :=
  { ejectionPeriodMS := 100,
    periodVarianceMS := 0,
    ejectionVelocity := 2,
    velocityVariance := 0,
    ejectionOffset := 0,
    thetaMin := 0,
    thetaMax := 90,
    phiReferenceVel := 0,
    phiVariance := 360,
    overrideAdvance := true,
    useEmitterSizes := false,
    useEmitterColors := false,
    lifetimeMS := 0,
    lifetimeVarianceMS := 0,
    partListInitSize := 8,
    renderReflection := true,
    particleDataBlocks := [wpd] }

/-- Concrete fixture: `wdata` with the override-advance flag cleared. -/
def wdataOA : GraphEmitterData := {wdata with overrideAdvance := false}

/-- Concrete fixture: a non-stand-alone, non-shutting-down node. -/
def wnode : GNode :=
  { standAloneEmitter := false,
    sa_ejectionPeriodMS := 50,
    sa_periodVarianceMS := 0,
    sa_ejectionVelocity := 1,
    sa_velocityVariance := 0,
    sa_ejectionOffset := 0,
    shuttingDown := false }

/-- Concrete fixture: one spawn's external draws (1000 ms lifetime). -/
def wdraw : Draw :=
  { periodJitter := 0,
    velRandF := 0,
    dBlockRand := 0,
    lifetime := 1000,
    ejectionAxis := ⟨0, 0, 1⟩,
    parserPos := ⟨0, 0, 0⟩,
    randF1 := 0,
    randF2 := 0,
    randF3 := 0 }

/-- Concrete fixture: no wind, no collisions, no attraction targets. -/
def wenv : Env :=
  { wind := Point3.zero,
    castRay := fun _ _ => none,
    attrAcc := fun _ => Point3.zero }

/-- Concrete fixture: a freshly bound emitter with an empty live list and
eight free slots. -/
def wst0 : GraphEmitter :=
  { mDead := false,
    mDeleteWhenEmpty := false,
    mDeleteOnTick := false,
    mInternalClock := 0,
    mNextParticleTime := 0,
    mLastPosition := Point3.zero,
    mHasLastPosition := false,
    mLifetimeMS := 0,
    mElapsedTimeMS := 0,
    n_parts := 0,
    n_part_capacity := 8,
    part_list := [],
    part_freelist := (List.range 8).map blankParticle,
    oldTime := 0,
    parentNodePos := Point3.zero,
    sticky := false,
    attractionActive := false,
    colors := fun _ => ColorV.zero,
    sizes := fun _ => 0,
    mDataBlock := wdata }

/-- Concrete fixture: a live particle in slot 0, aged 900 of 1000 ms. -/
def wpLive : Particle :=
  {blankParticle 0 with currentAge := 900, totalLifetime := 1000}

/-- Concrete fixture: `wst0` holding `wpLive` on the live list and the seven
remaining slots on the free list. -/
def wstLive : GraphEmitter :=
  { wst0 with
    part_list := [wpLive],
    part_freelist := (List.range 7).map (fun i => blankParticle (i + 1)),
    n_parts := 1 }

lemma foldl_cons_map {α β : Type} (f : α → β) :
    ∀ (l : List α) (init : List β),
      l.foldl (fun fl i => f i :: fl) init = (l.map f).reverse ++ init := by
  intro l
  induction l with
  | nil => intro init; rfl
  | cons a t ih =>
    intro init
    simp only [List.foldl_cons, List.map_cons, List.reverse_cons, ih]
    simp

lemma updateKeyData_slot (data : GraphEmitterData) (C : Fin 4 → ColorV)
    (S : Fin 4 → ℚ) (p : Particle) :
    (updateKeyData data C S p).slot = p.slot := by
  unfold updateKeyData
  split <;> rfl

lemma updateKeyData_currentAge (data : GraphEmitterData) (C : Fin 4 → ColorV)
    (S : Fin 4 → ℚ) (p : Particle) :
    (updateKeyData data C S p).currentAge = p.currentAge := by
  unfold updateKeyData
  split <;> rfl

lemma updateKeyData_totalLifetime (data : GraphEmitterData)
    (C : Fin 4 → ColorV) (S : Fin 4 → ℚ) (p : Particle) :
    (updateKeyData data C S p).totalLifetime =
      if p.totalLifetime < 1 then 1 else p.totalLifetime := by
  unfold updateKeyData
  split <;> rfl

lemma updateStep_ageview (env : Env) (st : GraphEmitter) (ms : Nat)
    (p : Particle) (h : 1 ≤ p.totalLifetime) :
    ageview (updateStep env st ms p) = ageview p := by
  unfold updateStep ageview
  simp only [updateKeyData_slot, updateKeyData_currentAge,
    updateKeyData_totalLifetime]
  split <;> simp [Nat.not_lt.mpr h]

lemma agePass_eq (ms : Nat) (l : List Particle) :
    agePass ms l = ((l.map (ageParticle ms)).filter agekeep,
                    (l.map (ageParticle ms)).filter agedrop) := by
  induction l with
  | nil => rfl
  | cons p rest ih =>
    simp only [agePass, List.map_cons, List.filter_cons, ih]
    by_cases hc : (ageParticle ms p).totalLifetime < (ageParticle ms p).currentAge
    · simp [agekeep, agedrop, hc, Nat.not_le.mpr hc]
    · simp [agekeep, agedrop, hc, Nat.not_lt.mp hc]

lemma tickMS_cast (dt : ℚ) (heps : ¬ dt < 1/100000) :
    ((tickMS dt : Nat) : Int) = ⌊(if dt > (1/2:ℚ) then (1/2:ℚ) else dt) * 1000⌋ := by
  have hdt : (0:ℚ) ≤ (if dt > (1/2:ℚ) then (1/2:ℚ) else dt) := by
    split
    · norm_num
    · push_neg at heps
      linarith [heps]
  have hpos : (0:ℚ) ≤ (if dt > (1/2:ℚ) then (1/2:ℚ) else dt) * 1000 := by positivity
  exact Int.toNat_of_nonneg (Int.floor_nonneg.mpr hpos)

lemma advanceTime_eq (env : Env) (dt : ℚ) (st : GraphEmitter)
    (hdead : st.mDead = false) (heps : ¬ dt < 1/100000)
    (hms : tickMS dt ≠ 0) :
    advanceTime env dt st =
      (let ms := tickMS dt
       let ar := agePass ms st.part_list
       let st2 : GraphEmitter :=
         { st with
           mElapsedTimeMS := st.mElapsedTimeMS + (ms : Int),
           part_list := ar.1,
           part_freelist := ar.2.reverse ++ st.part_freelist,
           n_parts := st.n_parts - (ar.2.length : Int) }
       if st2.n_parts < 1 ∧ st2.mDeleteWhenEmpty then
         {st2 with mDeleteOnTick := true}
       else if st2.n_parts > 0 then update env ms st2 else st2) := by
  have hcast := tickMS_cast dt heps
  unfold advanceTime
  rw [if_neg heps, hdead]
  simp only [Bool.false_eq_true, if_false]
  rw [show ⌊(if dt > (1/2:ℚ) then (1/2:ℚ) else dt) * 1000⌋ = ((tickMS dt : Nat) : Int) from hcast.symm]
  simp only [Int.toNat_natCast]
  rw [if_neg hms]

lemma advanceTime_small (env : Env) (dt : ℚ) (st : GraphEmitter)
    (h : dt < 1/100000) : advanceTime env dt st = st := by
  unfold advanceTime
  rw [if_pos h]

lemma advanceTime_zero_ms (env : Env) (dt : ℚ) (st : GraphEmitter)
    (hms : tickMS dt = 0) : advanceTime env dt st = st := by
  by_cases heps : dt < 1/100000
  · exact advanceTime_small env dt st heps
  · have hcast := tickMS_cast dt heps
    rw [hms] at hcast
    unfold advanceTime
    rw [if_neg heps]
    by_cases hdead : st.mDead
    · rw [if_pos hdead]
    · rw [if_neg hdead]
      rw [show ⌊(if dt > (1/2:ℚ) then (1/2:ℚ) else dt) * 1000⌋ = ((0:Nat) : Int) from hcast.symm]
      simp

/-- C8: an `advanceTime` call with `dt` below the 0.00001 s epsilon performs
no work and leaves the emitter state unchanged; otherwise the delta is
clamped to at most 0.5 s before any aging (the call behaves exactly as a call
with `min dt 0.5`); and when the clamped delta truncates to zero whole
milliseconds the aging/physics pass is skipped and the state is unchanged. -/
theorem C8_advanceTime_delta_handling (env : Env) (dt : ℚ) (st : GraphEmitter) :
    (dt < 1/100000 → advanceTime env dt st = st) ∧
    (advanceTime env dt st = advanceTime env (min dt (1/2)) st) ∧
    (tickMS dt = 0 → advanceTime env dt st = st) := by
  refine ⟨fun h => advanceTime_small env dt st h, ?_,
    fun h => advanceTime_zero_ms env dt st h⟩
  by_cases h2 : dt > 1/2
  · have hm : min dt (1/2) = 1/2 := min_eq_right h2.le
    rw [hm]
    unfold advanceTime
    rw [if_neg (by linarith : ¬ dt < 1/100000),
      if_neg (by norm_num : ¬ (1/2:ℚ) < 1/100000),
      if_pos h2, if_neg (lt_irrefl (1/2 : ℚ))]
  · have hm : min dt (1/2) = dt := min_eq_left (not_lt.mp h2)
    rw [hm]

/-- C8 witness: concrete calls on the fixture emitter with `dt` equal to
half the epsilon, 0.7 s, and 0.0005 s (which truncates to 0 ms). -/
theorem C8_witness :
    advanceTime wenv (1/200000) wst0 = wst0 ∧
    advanceTime wenv (7/10) wst0 = advanceTime wenv (min (7/10) (1/2)) wst0 ∧
    advanceTime wenv (1/2000) wst0 = wst0 := by
  refine ⟨(C8_advanceTime_delta_handling wenv (1/200000) wst0).1 (by norm_num),
    (C8_advanceTime_delta_handling wenv (7/10) wst0).2.1,
    (C8_advanceTime_delta_handling wenv (1/2000) wst0).2.2 ?_⟩
  have : (if (1/2000:ℚ) > 1/2 then (1/2:ℚ) else 1/2000) = 1/2000 := by norm_num
  rw [tickMS, this]
  norm_num

/-- C9: once `mDead` is set, every entry point of the emitter — the three
`emitParticles` overloads, `advanceTime` and `prepRenderImage` — performs no
particle-pool work: no spawn, no state change, no render submission. -/
theorem C9_dead_short_circuit (env : Env) (st : GraphEmitter)
    (h : st.mDead = true) :
    (∀ start end_ axis velocity numMS node ρ,
      emitParticlesPath env st start end_ axis velocity numMS node ρ =
        some (st, [])) ∧
    (∀ point useLast axis velocity numMS ρ,
      emitParticlesPoint env st point useLast axis velocity numMS ρ =
        some (st, [])) ∧
    (∀ rc rn radius velocity count ax ay az ρ,
      emitParticlesHemisphere st rc rn radius velocity count ax ay az ρ =
        some st) ∧
    (∀ dt, advanceTime env dt st = st) ∧
    (∀ rp sp, prepRenderImage st rp sp = none) := by
  refine ⟨fun _ _ _ _ _ _ _ => by simp [emitParticlesPath, h],
          fun _ _ _ _ _ _ => by simp [emitParticlesPoint, h],
          fun _ _ _ _ _ _ _ _ _ => by simp [emitParticlesHemisphere, h],
          fun dt => ?_, fun rp sp => by simp [prepRenderImage, h]⟩
  by_cases hdt : dt < 1/100000
  · exact advanceTime_small env dt st hdt
  · unfold advanceTime
    rw [if_neg hdt, if_pos h]

/-- C9 witness: the fixture emitter with the dead flag set. -/
theorem C9_witness :
    ({wst0 with mDead := true} : GraphEmitter).mDead = true ∧
    emitParticlesPath wenv {wst0 with mDead := true} Point3.zero Point3.zero
      Point3.zero Point3.zero 250 (some wnode) (fun _ => wdraw) =
      some ({wst0 with mDead := true}, []) ∧
    advanceTime wenv (1/10) {wst0 with mDead := true} =
      {wst0 with mDead := true} ∧
    prepRenderImage {wst0 with mDead := true} false false = none := by
  have h := C9_dead_short_circuit wenv {wst0 with mDead := true} rfl
  exact ⟨rfl, h.1 Point3.zero Point3.zero Point3.zero Point3.zero 250
    (some wnode) (fun _ => wdraw), h.2.2.2.1 (1/10), h.2.2.2.2 false false⟩

lemma agedrop_eq_not_agekeep (p : Particle) : agedrop p = !agekeep p := by
  by_cases h : p.currentAge ≤ p.totalLifetime
  · simp [agedrop, agekeep, h, Nat.not_lt.mpr h]
  · simp [agedrop, agekeep, h, Nat.not_le.mp h]

lemma survivor_lifetime_pos (ms : Nat) (hms : ms ≠ 0) (l : List Particle)
    (q : Particle) (hq : q ∈ (l.map (ageParticle ms)).filter agekeep) :
    1 ≤ q.totalLifetime ∧ q.currentAge ≤ q.totalLifetime := by
  rcases List.mem_filter.mp hq with ⟨hmem, hkeep⟩
  have hle : q.currentAge ≤ q.totalLifetime := by
    have := of_decide_eq_true hkeep
    exact this
  rcases List.mem_map.mp hmem with ⟨p0, _, hp0⟩
  have hage : ms ≤ q.currentAge := by
    rw [← hp0]
    simp [ageParticle]
  exact ⟨le_trans (le_trans (Nat.one_le_iff_ne_zero.mpr hms) hage) hle, hle⟩

lemma advanceTime_parts (env : Env) (dt : ℚ) (st : GraphEmitter)
    (hdead : st.mDead = false) (heps : ¬ dt < 1/100000)
    (hms : tickMS dt ≠ 0) :
    ((advanceTime env dt st).part_list.map ageview =
      ((st.part_list.map (ageParticle (tickMS dt))).filter agekeep).map
        ageview) ∧
    ((advanceTime env dt st).part_freelist =
      ((st.part_list.map (ageParticle (tickMS dt))).filter agedrop).reverse ++
        st.part_freelist) ∧
    ((advanceTime env dt st).n_parts = st.n_parts -
      (((st.part_list.map (ageParticle (tickMS dt))).filter agedrop).length :
        Int)) ∧
    ((advanceTime env dt st).mElapsedTimeMS =
      st.mElapsedTimeMS + (tickMS dt : Int)) := by
  rw [advanceTime_eq env dt st hdead heps hms]
  simp only [agePass_eq]
  split
  · exact ⟨rfl, rfl, rfl, rfl⟩
  · split
    · refine ⟨?_, rfl, rfl, rfl⟩
      unfold update
      simp only [List.map_map]
      refine (List.map_congr_left ?_)
      intro q hq
      exact updateStep_ageview _ _ _ q
        (survivor_lifetime_pos (tickMS dt) hms st.part_list q hq).1
    · exact ⟨rfl, rfl, rfl, rfl⟩

/-- C2: after any `advanceTime` pass that ages particles (nonzero millisecond
delta, live emitter), every particle still on the live list satisfies
`currentAge ≤ totalLifetime`; the surviving live list is, slot for slot and
age for age, exactly the aged originals that pass the test; the aged
particles that fail it are all pushed onto the free list in the same pass;
and survivors plus evicted partition the aged live list (no particle skipped,
none freed twice). -/
theorem C2_age_eviction_same_pass (env : Env) (dt : ℚ) (st : GraphEmitter)
    (hdead : st.mDead = false) (heps : ¬ dt < 1/100000)
    (hms : tickMS dt ≠ 0) :
    (∀ p ∈ (advanceTime env dt st).part_list,
      p.currentAge ≤ p.totalLifetime) ∧
    ((advanceTime env dt st).part_list.map ageview =
      ((st.part_list.map (ageParticle (tickMS dt))).filter agekeep).map
        ageview) ∧
    ((advanceTime env dt st).part_freelist =
      ((st.part_list.map (ageParticle (tickMS dt))).filter agedrop).reverse ++
        st.part_freelist) ∧
    (List.Perm
      ((st.part_list.map (ageParticle (tickMS dt))).filter agekeep ++
        (st.part_list.map (ageParticle (tickMS dt))).filter agedrop)
      (st.part_list.map (ageParticle (tickMS dt)))) ∧
    ((advanceTime env dt st).part_list.length +
      ((st.part_list.map (ageParticle (tickMS dt))).filter agedrop).length =
        st.part_list.length) := by
  obtain ⟨hlive, hfree, _, _⟩ := advanceTime_parts env dt st hdead heps hms
  have hperm : List.Perm
      ((st.part_list.map (ageParticle (tickMS dt))).filter agekeep ++
        (st.part_list.map (ageParticle (tickMS dt))).filter agedrop)
      (st.part_list.map (ageParticle (tickMS dt))) := by
    have hc : (st.part_list.map (ageParticle (tickMS dt))).filter agedrop =
        (st.part_list.map (ageParticle (tickMS dt))).filter
          (fun p => !agekeep p) :=
      List.filter_congr (fun p _ => agedrop_eq_not_agekeep p)
    rw [hc]
    exact List.filter_append_perm agekeep _
  refine ⟨?_, hlive, hfree, hperm, ?_⟩
  · intro p hp
    have hmem : ageview p ∈ (advanceTime env dt st).part_list.map ageview :=
      List.mem_map_of_mem ageview hp
    rw [hlive] at hmem
    rcases List.mem_map.mp hmem with ⟨q, hq, hqv⟩
    have hle := (survivor_lifetime_pos (tickMS dt) hms st.part_list q hq).2
    have hage : q.currentAge = p.currentAge := congrArg (fun v => v.2.1) hqv
    have hlife : q.totalLifetime = p.totalLifetime :=
      congrArg (fun v => v.2.2) hqv
    rw [hage, hlife] at hle
    exact hle
  · have hlen : (advanceTime env dt st).part_list.length =
        ((st.part_list.map (ageParticle (tickMS dt))).filter agekeep).length := by
      have := congrArg List.length hlive
      simpa using this
    have hsum := hperm.length_eq
    simp only [List.length_append, List.length_map] at hsum
    omega

/-- C2 witness: the fixture emitter holding one 900 ms old particle of
1000 ms lifetime, ticked by 0.1 s. -/
theorem C2_witness :
    wstLive.mDead = false ∧ ¬ (1/10 : ℚ) < 1/100000 ∧ tickMS (1/10) ≠ 0 ∧
    (∀ p ∈ (advanceTime wenv (1/10) wstLive).part_list,
      p.currentAge ≤ p.totalLifetime) := by
  have htick : tickMS (1/10) = 100 := by
    unfold tickMS
    rw [if_neg (by norm_num : ¬ (1/10:ℚ) > 1/2)]
    norm_num
    rfl
  refine ⟨rfl, by norm_num, by rw [htick]; exact (by norm_num), ?_⟩
  exact (C2_age_eviction_same_pass wenv (1/10) wstLive rfl (by norm_num)
    (by rw [htick]; exact (by norm_num))).1

lemma ageParticle_slot (ms : Nat) (p : Particle) :
    (ageParticle ms p).slot = p.slot := rfl

lemma ageParticle_currentAge (ms : Nat) (p : Particle) :
    (ageParticle ms p).currentAge = p.currentAge + ms := rfl

lemma ageParticle_totalLifetime (ms : Nat) (p : Particle) :
    (ageParticle ms p).totalLifetime = p.totalLifetime := rfl

lemma keyT_eq_one (p : Particle) (h1 : 1 ≤ p.totalLifetime)
    (h2 : p.currentAge = p.totalLifetime) : keyT p = 1 := by
  unfold keyT
  rw [if_neg (by omega : ¬ p.totalLifetime < 1), h2]
  exact div_self (by exact_mod_cast Nat.one_le_iff_ne_zero.mp h1)

/-- C10: a particle whose aged `currentAge` exactly equals its
`totalLifetime` survives the eviction pass (eviction requires a strict
excess): its slot and aging fields are still on the live list, its slot is
not on the free list, and the subsequent keyframe refresh computes the
normalised age `t = 1` exactly, satisfying the `t ≤ 1.0` fatal assertion. -/
theorem C10_exact_lifetime_not_evicted (env : Env) (dt : ℚ)
    (st : GraphEmitter) (p : Particle) (hdead : st.mDead = false)
    (heps : ¬ dt < 1/100000) (hms : tickMS dt ≠ 0)
    (hmem : p ∈ st.part_list)
    (hage : p.currentAge + tickMS dt = p.totalLifetime)
    (hnd : (slots (st.part_list ++ st.part_freelist)).Nodup) :
    ageview (ageParticle (tickMS dt) p) ∈
      (advanceTime env dt st).part_list.map ageview ∧
    p.slot ∉ slots (advanceTime env dt st).part_freelist ∧
    keyT (ageParticle (tickMS dt) p) = 1 ∧
    updateKeyDataAssert (ageParticle (tickMS dt) p) := by
  obtain ⟨hlive, hfree, _, _⟩ := advanceTime_parts env dt st hdead heps hms
  have hlife1 : 1 ≤ p.totalLifetime := by
    have : 1 ≤ tickMS dt := Nat.one_le_iff_ne_zero.mpr hms
    omega
  have hkeep : agekeep (ageParticle (tickMS dt) p) = true := by
    simp [agekeep, ageParticle, hage]
  have hmemf : ageParticle (tickMS dt) p ∈
      (st.part_list.map (ageParticle (tickMS dt))).filter agekeep :=
    List.mem_filter.mpr ⟨List.mem_map_of_mem _ hmem, hkeep⟩
  have hndl : (st.part_list.map (fun r => r.slot)).Nodup := by
    rw [slots, List.map_append] at hnd
    exact hnd.of_append_left
  have hdisj : (st.part_list.map (fun r => r.slot)).Disjoint
      (st.part_freelist.map (fun r => r.slot)) := by
    rw [slots, List.map_append] at hnd
    exact List.disjoint_of_nodup_append hnd
  have hkey1 : keyT (ageParticle (tickMS dt) p) = 1 :=
    keyT_eq_one _ (by rw [ageParticle_totalLifetime]; exact hlife1)
      (by rw [ageParticle_currentAge, ageParticle_totalLifetime]; exact hage)
  refine ⟨?_, ?_, hkey1, ?_⟩
  · rw [hlive]
    exact List.mem_map_of_mem ageview hmemf
  · rw [hfree]
    intro hcontra
    rw [slots, List.map_append, List.mem_append, List.map_reverse,
      List.mem_reverse] at hcontra
    rcases hcontra with hev | hold
    · rcases List.mem_map.mp hev with ⟨q, hqf, hqs⟩
      rcases List.mem_filter.mp hqf with ⟨hqm, hqd⟩
      rcases List.mem_map.mp hqm with ⟨p0, hp0, hp0q⟩
      have hq0 : q.slot = p0.slot := by rw [← hp0q, ageParticle_slot]
      have hslot : p0.slot = p.slot := by rw [← hq0, hqs]
      have hpp : p0 = p :=
        List.inj_on_of_nodup_map hndl hp0 hmem hslot
      rw [hpp] at hp0q
      rw [← hp0q] at hqd
      simp [agedrop, ageParticle] at hqd
      omega
    · exact hdisj (List.mem_map_of_mem _ hmem) hold
  · unfold updateKeyDataAssert
    rw [hkey1]

/-- C10 witness: the fixture particle aged 900 of 1000 ms, ticked by 0.1 s
(exactly 100 ms), reaching its lifetime exactly. -/
theorem C10_witness :
    wpLive ∈ wstLive.part_list ∧
    wpLive.currentAge + tickMS (1/10) = wpLive.totalLifetime ∧
    ageview (ageParticle (tickMS (1/10)) wpLive) ∈
      (advanceTime wenv (1/10) wstLive).part_list.map ageview ∧
    keyT (ageParticle (tickMS (1/10)) wpLive) = 1 := by
  have htick : tickMS (1/10) = 100 := by
    unfold tickMS
    rw [if_neg (by norm_num : ¬ (1/10:ℚ) > 1/2)]
    norm_num
    rfl
  have hage : wpLive.currentAge + tickMS (1/10) = wpLive.totalLifetime := by
    rw [htick]
    decide
  have h := C10_exact_lifetime_not_evicted wenv (1/10) wstLive wpLive rfl
    (by norm_num) (by rw [htick]; exact (by norm_num)) (List.Mem.head _)
    hage (by decide)
  exact ⟨List.Mem.head _, hage, h.1, h.2.2.1⟩

/-- C6: once the accumulated elapsed time strictly exceeds a positive emitter
lifetime, every spawn entry point (path-segment, point, hemisphere) returns
immediately with zero new particles and an unchanged state, while
`advanceTime` still ages and evicts live particles exactly as usual (the
aging pass never consults the emitter lifetime). -/
theorem C6_timebox (env : Env) (st : GraphEmitter)
    (hpos : 0 < st.mLifetimeMS) (hover : st.mLifetimeMS < st.mElapsedTimeMS) :
    (∀ start end_ axis velocity numMS node ρ,
      emitParticlesPath env st start end_ axis velocity numMS node ρ =
        some (st, [])) ∧
    (∀ point useLast axis velocity numMS ρ,
      emitParticlesPoint env st point useLast axis velocity numMS ρ =
        some (st, [])) ∧
    (∀ rc rn radius velocity count ax ay az ρ,
      emitParticlesHemisphere st rc rn radius velocity count ax ay az ρ =
        some st) ∧
    (∀ dt, st.mDead = false → ¬ dt < 1/100000 → tickMS dt ≠ 0 →
      ((advanceTime env dt st).part_list.map ageview =
        ((st.part_list.map (ageParticle (tickMS dt))).filter agekeep).map
          ageview) ∧
      ((advanceTime env dt st).part_freelist =
        ((st.part_list.map (ageParticle (tickMS dt))).filter agedrop).reverse
          ++ st.part_freelist)) := by
  refine ⟨fun start end_ axis velocity numMS node ρ => ?_,
    fun point useLast axis velocity numMS ρ => ?_,
    fun rc rn radius velocity count ax ay az ρ => ?_,
    fun dt hdead heps hms => ?_⟩
  · unfold emitParticlesPath
    by_cases hd : st.mDead
    · rw [if_pos hd]
    · rw [if_neg hd]
      by_cases he : st.mDataBlock.particleDataBlocks.isEmpty
      · rw [if_pos he]
      · rw [if_neg he, if_pos ⟨hpos, hover⟩]
  · unfold emitParticlesPoint
    by_cases hd : st.mDead
    · rw [if_pos hd]
    · rw [if_neg hd, if_pos ⟨hpos, hover⟩]
  · unfold emitParticlesHemisphere
    by_cases hd : st.mDead
    · rw [if_pos hd]
    · rw [if_neg hd, if_pos ⟨hpos, hover⟩]
  · obtain ⟨h1, h2, _, _⟩ := advanceTime_parts env dt st hdead heps hms
    exact ⟨h1, h2⟩

/-- C6 witness: the live fixture emitter with lifetime 100 ms and elapsed
time 250 ms spawns nothing on a path-segment call yet still ages its
particle on a 0.1 s tick. -/
theorem C6_witness :
    (0 : Int) < ({wstLive with mLifetimeMS := 100, mElapsedTimeMS := 250} :
      GraphEmitter).mLifetimeMS ∧
    ({wstLive with mLifetimeMS := 100, mElapsedTimeMS := 250} :
      GraphEmitter).mLifetimeMS <
      ({wstLive with mLifetimeMS := 100, mElapsedTimeMS := 250} :
        GraphEmitter).mElapsedTimeMS ∧
    emitParticlesPath wenv
      {wstLive with mLifetimeMS := 100, mElapsedTimeMS := 250}
      Point3.zero Point3.zero Point3.zero Point3.zero 250 (some wnode)
      (fun _ => wdraw) =
      some ({wstLive with mLifetimeMS := 100, mElapsedTimeMS := 250}, []) ∧
    ((advanceTime wenv (1/10)
        {wstLive with mLifetimeMS := 100, mElapsedTimeMS := 250}).part_list.map
      ageview =
      ((({wstLive with mLifetimeMS := 100, mElapsedTimeMS := 250} :
          GraphEmitter).part_list.map
        (ageParticle (tickMS (1/10)))).filter agekeep).map ageview) := by
  have htick : tickMS (1/10) = 100 := by
    unfold tickMS
    rw [if_neg (by norm_num : ¬ (1/10:ℚ) > 1/2)]
    norm_num
    rfl
  have h := C6_timebox wenv
    {wstLive with mLifetimeMS := 100, mElapsedTimeMS := 250}
    (by norm_num) (by norm_num)
  exact ⟨by norm_num, by norm_num,
    h.1 Point3.zero Point3.zero Point3.zero Point3.zero 250 (some wnode)
      (fun _ => wdraw),
    (h.2.2.2 (1/10) rfl (by norm_num)
      (by rw [htick]; exact (by norm_num))).1⟩

lemma emitPath_empty_templates (env : Env) (st : GraphEmitter)
    (hempty : st.mDataBlock.particleDataBlocks = []) :
    ∀ start end_ axis velocity numMS node ρ,
      emitParticlesPath env st start end_ axis velocity numMS node ρ =
        some (st, []) := by
  intro start end_ axis velocity numMS node ρ
  unfold emitParticlesPath
  by_cases hd : st.mDead
  · rw [if_pos hd]
  · rw [if_neg hd, if_pos (by rw [hempty]; rfl)]

lemma emitPoint_empty_templates (env : Env) (st : GraphEmitter)
    (hempty : st.mDataBlock.particleDataBlocks = []) :
    ∀ point useLast axis velocity numMS ρ,
      emitParticlesPoint env st point useLast axis velocity numMS ρ =
        some (st, []) := by
  intro point useLast axis velocity numMS ρ
  unfold emitParticlesPoint
  by_cases hd : st.mDead
  · rw [if_pos hd]
  · rw [if_neg hd]
    by_cases hl : 0 < st.mLifetimeMS ∧ st.mLifetimeMS < st.mElapsedTimeMS
    · rw [if_pos hl]
    · rw [if_neg hl]
      exact emitPath_empty_templates env st hempty _ _ _ _ _ _ _

/-- C7: with an empty bound-template list, the two path-based spawn entry
points are safe no-ops (general statements in `emitPath_empty_templates` and
`emitPoint_empty_templates`, instantiated here on the fixture emitter), but
the hemisphere burst overload is NOT: on the same fixture emitter with no
bound templates, a hemisphere call with count 1 reaches
`gRandGen.randI() % particleDataBlocks.size()` with size 0 inside
`addParticle` — modulo by zero, undefined behaviour (modelled as `none`) —
after having already linked a pool slot into the live list. -/
theorem C7_zero_template_entry_points :
    emitParticlesPath wenv
      {wst0 with mDataBlock := {wdata with particleDataBlocks := []}}
      Point3.zero ⟨1, 0, 0⟩ ⟨0, 0, 1⟩ Point3.zero 250 (some wnode)
      (fun _ => wdraw) =
      some ({wst0 with mDataBlock := {wdata with particleDataBlocks := []}},
        []) ∧
    emitParticlesPoint wenv
      {wst0 with mDataBlock := {wdata with particleDataBlocks := []}}
      Point3.zero false ⟨0, 0, 1⟩ Point3.zero 250 (fun _ => wdraw) =
      some ({wst0 with mDataBlock := {wdata with particleDataBlocks := []}},
        []) ∧
    emitParticlesHemisphere
      {wst0 with mDataBlock := {wdata with particleDataBlocks := []}}
      Point3.zero ⟨0, 0, 1⟩ 1 Point3.zero 1 ⟨1, 0, 0⟩ ⟨0, 1, 0⟩ ⟨0, 0, 1⟩
      (fun _ => wdraw) = none :=
  ⟨rfl, rfl, rfl⟩

theorem Point3.ext_xyz (a b : Point3) (hx : a.x = b.x) (hy : a.y = b.y)
    (hz : a.z = b.z) : a = b := by
  cases a
  cases b
  simp_all

lemma Point3.add_def (a b : Point3) :
    a + b = ⟨a.x + b.x, a.y + b.y, a.z + b.z⟩ := rfl

lemma Point3.sub_def (a b : Point3) :
    a - b = ⟨a.x - b.x, a.y - b.y, a.z - b.z⟩ := rfl

lemma Point3.scale_def (a : Point3) (s : ℚ) :
    a.scale s = ⟨a.x * s, a.y * s, a.z * s⟩ := rfl

/-- `Point3F::interpolate(a, b, t) = a*(1-t) + b*t` equals the spec's
`a + (b - a)*t` exactly over the rationals. -/
lemma interpolate_eq_spec (a b : Point3) (t : ℚ) :
    Point3.interpolate a b t = a + (b - a).scale t := by
  unfold Point3.interpolate
  simp only [Point3.add_def, Point3.sub_def, Point3.scale_def]
  exact Point3.ext_xyz _ _ (by ring) (by ring) (by ring)

/-- C4: pending sub-period handling at the head of a path-segment
`emitParticles` call.  If the nonzero pending time strictly exceeds the
segment duration, the call spawns nothing; it only decrements the pending
counter by the duration, advances the internal clock by the duration, and
records the segment end as the last position.  Otherwise the pending time is
consumed: exactly one particle is spawned at the interpolated position
`start + (end-start)·(consumedTime/duration)` and the pending counter is
reset to zero before the spawn loop runs. -/
theorem C4_pending_subperiod (env : Env) (st : GraphEmitter)
    (start end_ axis velocity : Point3) (numMS : Nat)
    (node : Option GNode) (ρ : Nat → Draw)
    (hdead : st.mDead = false)
    (htmpl : st.mDataBlock.particleDataBlocks.isEmpty = false)
    (hlife : ¬ (0 < st.mLifetimeMS ∧ st.mLifetimeMS < st.mElapsedTimeMS))
    (hpend : st.mNextParticleTime ≠ 0) :
    (numMS < st.mNextParticleTime →
      emitParticlesPath env st start end_ axis velocity numMS node ρ =
        some ({ st with
                mNextParticleTime := st.mNextParticleTime - numMS,
                mInternalClock := st.mInternalClock + numMS,
                mLastPosition := end_,
                mHasLastPosition := true }, [])) ∧
    (st.mNextParticleTime ≤ numMS →
      (Point3.interpolate start end_
          ((st.mNextParticleTime : ℚ) / (numMS : ℚ)) =
        start + (end_ - start).scale
          ((st.mNextParticleTime : ℚ) / (numMS : ℚ))) ∧
      ∀ st2,
        addParticleWithNode
            {st with mInternalClock :=
              st.mInternalClock + st.mNextParticleTime}
            (Point3.interpolate start end_
              ((st.mNextParticleTime : ℚ) / (numMS : ℚ)))
            axis velocity axis node (ρ 0) = some st2 →
          pendingPhase st start end_ axis velocity numMS node (ρ 0) =
            some (.proceed {st2 with mNextParticleTime := 0}
              st.mNextParticleTime
              [Point3.interpolate start end_
                ((st.mNextParticleTime : ℚ) / (numMS : ℚ))])) := by
  constructor
  · intro hlt
    unfold emitParticlesPath
    rw [hdead]
    simp only [Bool.false_eq_true, if_false]
    rw [htmpl]
    simp only [Bool.false_eq_true, if_false]
    rw [if_neg hlife]
    unfold pendingPhase
    rw [if_neg hpend, if_pos hlt]
    simp [hdead]
  · intro hle
    refine ⟨interpolate_eq_spec start end_ _, fun st2 h2 => ?_⟩
    unfold pendingPhase
    rw [if_neg hpend, if_neg (not_lt.mpr hle)]
    dsimp only
    rw [h2]

/-- C4 witness: pending 300 ms.  A 200 ms segment defers (no spawn, pending
drops to 100, clock advances 200, last position set); a 400 ms segment
consumes the pending time with exactly one spawn at the interpolated
position and resets the pending counter to zero. -/
theorem C4_witness :
    emitParticlesPath wenv {wst0 with mNextParticleTime := 300} Point3.zero
      ⟨1, 0, 0⟩ ⟨0, 0, 1⟩ Point3.zero 200 (some wnode) (fun _ => wdraw) =
      some ({ ({wst0 with mNextParticleTime := 300} : GraphEmitter) with
              mNextParticleTime :=
                ({wst0 with mNextParticleTime := 300} :
                  GraphEmitter).mNextParticleTime - 200,
              mInternalClock :=
                ({wst0 with mNextParticleTime := 300} :
                  GraphEmitter).mInternalClock + 200,
              mLastPosition := ⟨1, 0, 0⟩,
              mHasLastPosition := true }, []) ∧
    (∃ st2,
      addParticleWithNode
          { ({wst0 with mNextParticleTime := 300} : GraphEmitter) with
            mInternalClock :=
              ({wst0 with mNextParticleTime := 300} :
                GraphEmitter).mInternalClock +
              ({wst0 with mNextParticleTime := 300} :
                GraphEmitter).mNextParticleTime }
          (Point3.interpolate Point3.zero ⟨1, 0, 0⟩
            (((({wst0 with mNextParticleTime := 300} :
                GraphEmitter).mNextParticleTime : ℚ)) / ((400 : Nat) : ℚ)))
          ⟨0, 0, 1⟩ Point3.zero ⟨0, 0, 1⟩ (some wnode) wdraw = some st2 ∧
      pendingPhase {wst0 with mNextParticleTime := 300} Point3.zero
          ⟨1, 0, 0⟩ ⟨0, 0, 1⟩ Point3.zero 400 (some wnode) wdraw =
        some (.proceed {st2 with mNextParticleTime := 0}
          ({wst0 with mNextParticleTime := 300} :
            GraphEmitter).mNextParticleTime
          [Point3.interpolate Point3.zero ⟨1, 0, 0⟩
            (((({wst0 with mNextParticleTime := 300} :
                GraphEmitter).mNextParticleTime : ℚ)) /
              ((400 : Nat) : ℚ))])) := by
  have h200 := C4_pending_subperiod wenv {wst0 with mNextParticleTime := 300}
    Point3.zero ⟨1, 0, 0⟩ ⟨0, 0, 1⟩ Point3.zero 200 (some wnode)
    (fun _ => wdraw) rfl rfl (by decide) (by decide)
  have h400 := C4_pending_subperiod wenv {wst0 with mNextParticleTime := 300}
    Point3.zero ⟨1, 0, 0⟩ ⟨0, 0, 1⟩ Point3.zero 400 (some wnode)
    (fun _ => wdraw) rfl rfl (by decide) (by decide)
  refine ⟨h200.1 (by decide), ?_⟩
  have hs : (addParticleWithNode
      { ({wst0 with mNextParticleTime := 300} : GraphEmitter) with
        mInternalClock :=
          ({wst0 with mNextParticleTime := 300} :
            GraphEmitter).mInternalClock +
          ({wst0 with mNextParticleTime := 300} :
            GraphEmitter).mNextParticleTime }
      (Point3.interpolate Point3.zero ⟨1, 0, 0⟩
        (((({wst0 with mNextParticleTime := 300} :
            GraphEmitter).mNextParticleTime : ℚ)) / ((400 : Nat) : ℚ)))
      ⟨0, 0, 1⟩ Point3.zero ⟨0, 0, 1⟩ (some wnode) wdraw).isSome = true := by
    rfl
  obtain ⟨st2, hst2⟩ := Option.isSome_iff_exists.mp hs
  exact ⟨st2, hst2, (h400.2 (by decide)).2 st2 hst2⟩

lemma emitLoop_spawn_step (env : Env) (nd : GNode)
    (start end_ axis velocity : Point3) (numMS : Nat) (ρ : Nat → Draw)
    (fuel k currTime : Nat) (stx : GraphEmitter) (ps : List Point3)
    (st2 : GraphEmitter)
    (hcur : currTime < numMS)
    (hpos : 0 < periodDraw nd stx.mDataBlock (ρ k))
    (hfits : currTime + (periodDraw nd stx.mDataBlock (ρ k)).toNat ≤ numMS)
    (hadd : addParticleWithNode
      {stx with mInternalClock :=
        stx.mInternalClock + (periodDraw nd stx.mDataBlock (ρ k)).toNat}
      (Point3.interpolate start end_
        (((currTime + (periodDraw nd stx.mDataBlock (ρ k)).toNat : Nat) : ℚ) /
          (numMS : ℚ)))
      axis velocity axis (some nd) (ρ k) = some st2) :
    emitLoop env (some nd) start end_ axis velocity numMS ρ (fuel + 1) k
      currTime stx ps =
      emitLoop env (some nd) start end_ axis velocity numMS ρ fuel (k + 1)
        (currTime + (periodDraw nd stx.mDataBlock (ρ k)).toNat)
        (advanceCollapse env
          (numMS - (currTime + (periodDraw nd stx.mDataBlock (ρ k)).toNat))
          st2)
        (ps ++ [Point3.interpolate start end_
          (((currTime + (periodDraw nd stx.mDataBlock (ρ k)).toNat : Nat) : ℚ)
            / (numMS : ℚ))]) := by
  conv_lhs => rw [emitLoop]
  rw [if_pos hcur]
  dsimp only
  rw [if_neg (not_le.mpr hpos), if_neg (not_lt.mpr hfits), hadd]

/-- C5: the advance-collapse rule.  With the override-advance flag false and
a nonzero leftover time after a spawn instant, the live-list head (the most
recently spawned particle) is either — when the leftover exceeds its total
lifetime — unlinked from the head, `n_parts` decremented and its slot pushed
onto the free list in the same call, or otherwise forward-integrated by the
leftover time: drag, wind and gravity accumulate into the acceleration, then
velocity, then position, then the keyframe refresh.  The final conjunct ties
the rule to the spawn loop: each successful spawn iteration applies
`advanceCollapse` with the leftover `numMS - currTime` to the just-spawned
state. -/
theorem C5_advance_collapse_rule (env : Env) (st : GraphEmitter)
    (advanceMS : Nat) (p : Particle) (rest : List Particle)
    (hov : st.mDataBlock.overrideAdvance = false) (hms : advanceMS ≠ 0)
    (hlist : st.part_list = p :: rest) :
    (p.totalLifetime < advanceMS →
      advanceCollapse env advanceMS st =
        { st with
          part_list := rest,
          n_parts := st.n_parts - 1,
          part_freelist := p :: st.part_freelist }) ∧
    (advanceMS ≤ p.totalLifetime →
      advanceCollapse env advanceMS st =
        { st with
          part_list :=
            updateKeyData st.mDataBlock st.colors st.sizes
              { p with
                vel := p.vel +
                  (p.acc - p.vel.scale p.dataBlock.dragCoefficient -
                    env.wind.scale p.dataBlock.windCoefficient +
                    gravAcc.scale p.dataBlock.gravityCoefficient).scale
                    ((advanceMS : ℚ) / 1000),
                pos := p.pos +
                  (p.vel +
                    (p.acc - p.vel.scale p.dataBlock.dragCoefficient -
                      env.wind.scale p.dataBlock.windCoefficient +
                      gravAcc.scale p.dataBlock.gravityCoefficient).scale
                      ((advanceMS : ℚ) / 1000)).scale
                    ((advanceMS : ℚ) / 1000) } :: rest }) ∧
    (∀ (nd : GNode) (start end_ axis velocity : Point3) (numMS : Nat)
        (ρ : Nat → Draw) (fuel k currTime : Nat) (ps : List Point3)
        (st2 : GraphEmitter),
      currTime < numMS →
      0 < periodDraw nd st.mDataBlock (ρ k) →
      currTime + (periodDraw nd st.mDataBlock (ρ k)).toNat ≤ numMS →
      addParticleWithNode
          {st with mInternalClock :=
            st.mInternalClock + (periodDraw nd st.mDataBlock (ρ k)).toNat}
          (Point3.interpolate start end_
            (((currTime + (periodDraw nd st.mDataBlock (ρ k)).toNat : Nat) :
              ℚ) / (numMS : ℚ)))
          axis velocity axis (some nd) (ρ k) = some st2 →
        emitLoop env (some nd) start end_ axis velocity numMS ρ (fuel + 1) k
          currTime st ps =
          emitLoop env (some nd) start end_ axis velocity numMS ρ fuel
            (k + 1) (currTime + (periodDraw nd st.mDataBlock (ρ k)).toNat)
            (advanceCollapse env
              (numMS -
                (currTime + (periodDraw nd st.mDataBlock (ρ k)).toNat)) st2)
            (ps ++ [Point3.interpolate start end_
              (((currTime + (periodDraw nd st.mDataBlock (ρ k)).toNat :
                Nat) : ℚ) / (numMS : ℚ))])) := by
  refine ⟨fun hgt => ?_, fun hle => ?_, ?_⟩
  · unfold advanceCollapse
    rw [if_pos ⟨hov, hms⟩, hlist]
    dsimp only
    rw [if_pos hgt]
  · unfold advanceCollapse
    rw [if_pos ⟨hov, hms⟩, hlist]
    dsimp only
    rw [if_neg (not_lt.mpr hle)]
  · intro nd start end_ axis velocity numMS ρ fuel k currTime ps st2 hcur
      hpos hfits hadd
    exact emitLoop_spawn_step env nd start end_ axis velocity numMS ρ fuel k
      currTime st ps st2 hcur hpos hfits hadd

/-- C5 witness: a 1000 ms lifetime head particle under a no-override
datablock.  A 1200 ms leftover expires it to the free list; a 100 ms
leftover forward-integrates it. -/
theorem C5_witness :
    advanceCollapse wenv 1200 {wstLive with mDataBlock := wdataOA} =
      { ({wstLive with mDataBlock := wdataOA} : GraphEmitter) with
        part_list := [],
        n_parts :=
          ({wstLive with mDataBlock := wdataOA} : GraphEmitter).n_parts - 1,
        part_freelist := wpLive ::
          ({wstLive with mDataBlock := wdataOA} :
            GraphEmitter).part_freelist } ∧
    advanceCollapse wenv 100 {wstLive with mDataBlock := wdataOA} =
      { ({wstLive with mDataBlock := wdataOA} : GraphEmitter) with
        part_list :=
          [updateKeyData
            ({wstLive with mDataBlock := wdataOA} :
              GraphEmitter).mDataBlock
            ({wstLive with mDataBlock := wdataOA} : GraphEmitter).colors
            ({wstLive with mDataBlock := wdataOA} : GraphEmitter).sizes
            { wpLive with
              vel := wpLive.vel +
                (wpLive.acc -
                  wpLive.vel.scale wpLive.dataBlock.dragCoefficient -
                  wenv.wind.scale wpLive.dataBlock.windCoefficient +
                  gravAcc.scale wpLive.dataBlock.gravityCoefficient).scale
                  ((100 : ℚ) / 1000),
              pos := wpLive.pos +
                (wpLive.vel +
                  (wpLive.acc -
                    wpLive.vel.scale wpLive.dataBlock.dragCoefficient -
                    wenv.wind.scale wpLive.dataBlock.windCoefficient +
                    gravAcc.scale wpLive.dataBlock.gravityCoefficient).scale
                    ((100 : ℚ) / 1000)).scale ((100 : ℚ) / 1000) }] } := by
  have h1200 := C5_advance_collapse_rule wenv
    {wstLive with mDataBlock := wdataOA} 1200 wpLive [] rfl (by decide) rfl
  have h100 := C5_advance_collapse_rule wenv
    {wstLive with mDataBlock := wdataOA} 100 wpLive [] rfl (by decide) rfl
  exact ⟨h1200.1 (by decide), (h100.2.1 (by decide))⟩

lemma blankParticle_slot (s : Nat) : (blankParticle s).slot = s := rfl

lemma updateStep_slot (env : Env) (st : GraphEmitter) (ms : Nat)
    (p : Particle) : (updateStep env st ms p).slot = p.slot := by
  unfold updateStep
  rw [updateKeyData_slot]
  split <;> rfl

lemma periodDraw_const (nd : GNode) (data : GraphEmitterData) (d : Draw)
    (hv : effVariance nd data = 0) : periodDraw nd data d = effPeriod nd data := by
  unfold periodDraw effPeriod
  unfold effVariance at hv
  by_cases hsa : nd.standAloneEmitter
  · rw [if_pos hsa] at hv ⊢
    rw [if_pos hsa, if_neg (by omega : ¬ nd.sa_periodVarianceMS ≠ 0)]
    omega
  · rw [if_neg hsa] at hv ⊢
    rw [if_neg hsa, if_neg (by omega : ¬ data.periodVarianceMS ≠ 0)]
    omega

lemma pop_pool_inv (live : List Particle) (pNew : Particle)
    (rest : List Particle) (cap : Int)
    (hlen : (live.length : Int) + (((pNew :: rest).length : Nat) : Int) = cap)
    (hnd : (slots (live ++ pNew :: rest)).Nodup)
    (hbnd : ∀ s ∈ slots (live ++ pNew :: rest), s < cap.toNat) :
    ∀ q, q.slot = pNew.slot →
      PoolInvP (q :: live) rest ((live.length : Int) + 1) cap := by
  intro q hq
  have hperm : List.Perm (slots (live ++ pNew :: rest))
      (pNew.slot :: slots (live ++ rest)) := by
    simp only [slots, List.map_append, List.map_cons]
    exact List.perm_middle
  have hnd2 : (pNew.slot :: slots (live ++ rest)).Nodup := hperm.nodup hnd
  refine ⟨?_, ?_, ?_, ?_⟩
  · simp
  · simp only [List.length_cons] at hlen ⊢
    push_cast at hlen ⊢
    omega
  · have : slots ((q :: live) ++ rest) = q.slot :: slots (live ++ rest) := by
      simp [slots]
    rw [this, hq]
    exact hnd2
  · intro s hs
    have : slots ((q :: live) ++ rest) = q.slot :: slots (live ++ rest) := by
      simp [slots]
    rw [this, hq] at hs
    exact hbnd s (hperm.mem_iff.mpr hs)

lemma grow_pool_inv (live free : List Particle) (cap : Int)
    (hlen : (live.length : Int) + (free.length : Int) = cap)
    (hnd : (slots (live ++ free)).Nodup)
    (hbnd : ∀ s ∈ slots (live ++ free), s < cap.toNat) :
    ((live.length : Int) + ((((List.range 16).foldl
        (fun fl i => blankParticle (cap.toNat + i) :: fl) free).length : Nat) :
          Int) = cap + 16) ∧
    (slots (live ++ (List.range 16).foldl
        (fun fl i => blankParticle (cap.toNat + i) :: fl) free)).Nodup ∧
    (∀ s ∈ slots (live ++ (List.range 16).foldl
        (fun fl i => blankParticle (cap.toNat + i) :: fl) free),
      s < (cap + 16).toNat) ∧
    (List.range 16).foldl (fun fl i => blankParticle (cap.toNat + i) :: fl)
      free ≠ [] := by
  have hcap0 : 0 ≤ cap := by
    rw [← hlen]
    positivity
  rw [foldl_cons_map (fun i => blankParticle (cap.toNat + i)) (List.range 16)
    free]
  have hslots : slots (live ++
      (((List.range 16).map (fun i => blankParticle (cap.toNat + i))).reverse
        ++ free)) =
      slots live ++ (((List.range 16).map (fun i => cap.toNat + i)).reverse ++
        slots free) := by
    simp [slots, List.map_append, List.map_reverse, List.map_map,
      Function.comp, blankParticle_slot]
  have hndAC : (slots live ++ slots free).Nodup := by
    have : slots (live ++ free) = slots live ++ slots free := by
      simp [slots]
    rw [this] at hnd
    exact hnd
  have hbndAC : ∀ s ∈ slots live ++ slots free, s < cap.toNat := by
    intro s hs
    refine hbnd s ?_
    have : slots (live ++ free) = slots live ++ slots free := by
      simp [slots]
    rw [this]
    exact hs
  have hmemM : ∀ s ∈ ((List.range 16).map (fun i => cap.toNat + i)).reverse,
      cap.toNat ≤ s ∧ s < cap.toNat + 16 := by
    intro s hs
    rw [List.mem_reverse] at hs
    rcases List.mem_map.mp hs with ⟨i, hi, hieq⟩
    rw [List.mem_range] at hi
    omega
  have hndM : (((List.range 16).map (fun i => cap.toNat + i)).reverse).Nodup := by
    rw [List.nodup_reverse]
    exact List.Nodup.map (fun a b h => by omega) (List.nodup_range 16)
  refine ⟨?_, ?_, ?_, ?_⟩
  · simp only [List.length_append, List.length_reverse, List.length_map,
      List.length_range]
    push_cast
    omega
  · rw [hslots]
    rw [List.nodup_append]
    refine ⟨hndAC.of_append_left, ?_, ?_⟩
    · rw [List.nodup_append]
      refine ⟨hndM, (List.nodup_append.mp hndAC).2.1, ?_⟩
      intro s hsM hsC
      have := (hmemM s hsM).1
      have := hbndAC s (List.mem_append_right _ hsC)
      omega
    · intro s hsA hsMC
      have hsltcap := hbndAC s (List.mem_append_left _ hsA)
      rcases List.mem_append.mp hsMC with hsM | hsC
      · have := (hmemM s hsM).1
        omega
      · exact (List.nodup_append.mp hndAC).2.2 hsA hsC
  · intro s hs
    rw [hslots] at hs
    have hcap16 : (cap + 16).toNat = cap.toNat + 16 := by omega
    rw [hcap16]
    rcases List.mem_append.mp hs with hsA | hsMC
    · have := hbndAC s (List.mem_append_left _ hsA)
      omega
    · rcases List.mem_append.mp hsMC with hsM | hsC
      · exact (hmemM s hsM).2
      · have := hbndAC s (List.mem_append_right _ hsC)
        omega
  · intro hcontra
    have := congrArg List.length hcontra
    simp at this

lemma addParticleAlloc_spec (st : GraphEmitter) (hinv : PoolInv st) :
    ∃ pNew st1,
      addParticleAlloc st = some (pNew, st1) ∧
      st1.part_list = st.part_list ∧
      st1.n_parts = st.n_parts + 1 ∧
      st1.mDataBlock = st.mDataBlock ∧
      st1.mNextParticleTime = st.mNextParticleTime ∧
      st1.mDead = st.mDead ∧
      st1.mLifetimeMS = st.mLifetimeMS ∧
      st1.mElapsedTimeMS = st.mElapsedTimeMS ∧
      st1.mInternalClock = st.mInternalClock ∧
      (∀ q, q.slot = pNew.slot →
        PoolInvP (q :: st1.part_list) st1.part_freelist st1.n_parts
          st1.n_part_capacity) := by
  obtain ⟨hn, hlen, hnd, hbnd⟩ := hinv
  unfold addParticleAlloc
  dsimp only
  by_cases hg : st.n_parts + 1 > st.n_part_capacity ∨
      st.n_parts + 1 > st.mDataBlock.partListInitSize
  · rw [if_pos hg]
    obtain ⟨hlen2, hnd2, hbnd2, hne⟩ :=
      grow_pool_inv st.part_list st.part_freelist st.n_part_capacity hlen hnd
        hbnd
    rcases hsplit : (List.range 16).foldl
        (fun fl i => blankParticle (st.n_part_capacity.toNat + i) :: fl)
        st.part_freelist with _ | ⟨pNew, rest⟩
    · exact absurd hsplit hne
    · rw [hsplit] at hlen2 hnd2 hbnd2
      dsimp only
      refine ⟨pNew, _, rfl, rfl, rfl, rfl, rfl, rfl, rfl, rfl, rfl, ?_⟩
      intro q hq
      have := pop_pool_inv st.part_list pNew rest (st.n_part_capacity + 16)
        hlen2 hnd2 hbnd2 q hq
      rw [show (st.n_parts + 1 : Int) = (st.part_list.length : Int) + 1 by
        omega]
      exact this
  · rw [if_neg hg]
    push_neg at hg
    rcases hsplit : st.part_freelist with _ | ⟨pNew, rest⟩
    · exfalso
      rw [hsplit] at hlen
      simp only [List.length_nil, Nat.cast_zero, add_zero] at hlen
      omega
    · rw [hsplit] at hlen hnd hbnd
      dsimp only
      refine ⟨pNew, _, rfl, rfl, rfl, rfl, rfl, rfl, rfl, rfl, rfl, ?_⟩
      intro q hq
      have := pop_pool_inv st.part_list pNew rest st.n_part_capacity
        hlen hnd hbnd q hq
      rw [show (st.n_parts + 1 : Int) = (st.part_list.length : Int) + 1 by
        omega]
      exact this

lemma addParticleWithNode_poolInv (st : GraphEmitter)
    (pos axis vel axisx : Point3) (node : Option GNode) (d : Draw)
    (st2 : GraphEmitter) (hinv : PoolInv st)
    (hsucc : addParticleWithNode st pos axis vel axisx node d = some st2) :
    PoolInv st2 ∧ st2.mDataBlock = st.mDataBlock ∧
    st2.mNextParticleTime = st.mNextParticleTime ∧ st2.mDead = st.mDead ∧
    st2.mLifetimeMS = st.mLifetimeMS ∧
    st2.mElapsedTimeMS = st.mElapsedTimeMS ∧
    st2.part_list.length = st.part_list.length + 1 := by
  obtain ⟨pNew, st1, halloc, hplist, hnp, hdb, hnpt, hdead, hlife, hel, hclk,
    hpkg⟩ := addParticleAlloc_spec st hinv
  unfold addParticleWithNode at hsucc
  cases node with
  | none => exact absurd hsucc (by simp)
  | some nd =>
    rw [halloc] at hsucc
    dsimp only at hsucc
    by_cases hsd : nd.shuttingDown
    · rw [if_pos hsd] at hsucc
      injection hsucc with hsucc
      subst hsucc
      refine ⟨?_, hdb, hnpt, hdead, hlife, hel, by simp [hplist]⟩
      exact hpkg _ rfl
    · rw [if_neg hsd] at hsucc
      rcases hb : st1.mDataBlock.particleDataBlocks with _ | ⟨b, bs⟩
      · rw [hb] at hsucc
        exact absurd hsucc (by simp)
      · rw [hb] at hsucc
        dsimp only at hsucc
        injection hsucc with hsucc
        subst hsucc
        refine ⟨?_, hdb, hnpt, hdead, hlife, hel, by simp [hplist]⟩
        exact hpkg _ (by rw [updateKeyData_slot]; rfl)

lemma addParticle_poolInv (st : GraphEmitter) (pos axis vel axisx : Point3)
    (d : Draw) (st2 : GraphEmitter) (hinv : PoolInv st)
    (hsucc : addParticle st pos axis vel axisx d = some st2) :
    PoolInv st2 ∧ st2.mDataBlock = st.mDataBlock ∧
    st2.mNextParticleTime = st.mNextParticleTime ∧ st2.mDead = st.mDead ∧
    st2.mLifetimeMS = st.mLifetimeMS ∧
    st2.mElapsedTimeMS = st.mElapsedTimeMS ∧
    st2.part_list.length = st.part_list.length + 1 := by
  obtain ⟨pNew, st1, halloc, hplist, hnp, hdb, hnpt, hdead, hlife, hel, hclk,
    hpkg⟩ := addParticleAlloc_spec st hinv
  unfold addParticle at hsucc
  rw [halloc] at hsucc
  dsimp only at hsucc
  rcases hb : st1.mDataBlock.particleDataBlocks with _ | ⟨b, bs⟩
  · rw [hb] at hsucc
    exact absurd hsucc (by simp)
  · rw [hb] at hsucc
    dsimp only at hsucc
    injection hsucc with hsucc
    subst hsucc
    refine ⟨?_, hdb, hnpt, hdead, hlife, hel, by simp [hplist]⟩
    exact hpkg _ (by rw [updateKeyData_slot]; rfl)

lemma addParticleWithNode_some (st : GraphEmitter)
    (pos axis vel axisx : Point3) (nd : GNode) (d : Draw)
    (hinv : PoolInv st)
    (htmpl : st.mDataBlock.particleDataBlocks ≠ []) :
    ∃ st2, addParticleWithNode st pos axis vel axisx (some nd) d = some st2 := by
  obtain ⟨pNew, st1, halloc, hplist, hnp, hdb, hnpt, hdead, hlife, hel, hclk,
    hpkg⟩ := addParticleAlloc_spec st hinv
  unfold addParticleWithNode
  rw [halloc]
  dsimp only
  by_cases hsd : nd.shuttingDown
  · rw [if_pos hsd]
    exact ⟨_, rfl⟩
  · rw [if_neg hsd]
    rcases hb : st1.mDataBlock.particleDataBlocks with _ | ⟨b, bs⟩
    · rw [hdb] at hb
      exact absurd hb htmpl
    · exact ⟨_, rfl⟩

lemma advanceCollapse_fields (env : Env) (a : Nat) (st : GraphEmitter) :
    (advanceCollapse env a st).mDataBlock = st.mDataBlock ∧
    (advanceCollapse env a st).mNextParticleTime = st.mNextParticleTime ∧
    (advanceCollapse env a st).mDead = st.mDead ∧
    (advanceCollapse env a st).mLifetimeMS = st.mLifetimeMS ∧
    (advanceCollapse env a st).mElapsedTimeMS = st.mElapsedTimeMS := by
  unfold advanceCollapse
  split
  · split
    · exact ⟨rfl, rfl, rfl, rfl, rfl⟩
    · split
      · exact ⟨rfl, rfl, rfl, rfl, rfl⟩
      · exact ⟨rfl, rfl, rfl, rfl, rfl⟩
  · exact ⟨rfl, rfl, rfl, rfl, rfl⟩

lemma advanceCollapse_poolInv (env : Env) (a : Nat) (st : GraphEmitter)
    (hinv : PoolInv st) : PoolInv (advanceCollapse env a st) := by
  obtain ⟨hn, hlen, hnd, hbnd⟩ := hinv
  unfold advanceCollapse
  split
  · split
    · exact ⟨hn, hlen, hnd, hbnd⟩
    · next p rest heq =>
      rw [heq] at hn hlen hnd hbnd
      split
      · refine ⟨?_, ?_, ?_, ?_⟩
        · simp only [List.length_cons] at hn
          push_cast at hn ⊢
          omega
        · simp only [List.length_cons] at hlen ⊢
          push_cast at hlen ⊢
          omega
        · have hperm : List.Perm (slots (p :: rest ++ st.part_freelist))
              (slots (rest ++ p :: st.part_freelist)) := by
            simp only [slots, List.map_append, List.map_cons, List.cons_append]
            exact List.perm_middle.symm
          exact hperm.nodup hnd
        · intro s hs
          have hperm : List.Perm (slots (p :: rest ++ st.part_freelist))
              (slots (rest ++ p :: st.part_freelist)) := by
            simp only [slots, List.map_append, List.map_cons, List.cons_append]
            exact List.perm_middle.symm
          exact hbnd s (hperm.mem_iff.mpr hs)
      · have hs : slots ((updateKeyData st.mDataBlock st.colors st.sizes
            { p with
              vel := p.vel + (p.acc -
                p.vel.scale p.dataBlock.dragCoefficient -
                env.wind.scale p.dataBlock.windCoefficient +
                gravAcc.scale p.dataBlock.gravityCoefficient).scale
                ((a : ℚ) / 1000),
              pos := p.pos + (p.vel + (p.acc -
                p.vel.scale p.dataBlock.dragCoefficient -
                env.wind.scale p.dataBlock.windCoefficient +
                gravAcc.scale p.dataBlock.gravityCoefficient).scale
                ((a : ℚ) / 1000)).scale ((a : ℚ) / 1000) }) ::
              rest ++ st.part_freelist) =
            slots (p :: rest ++ st.part_freelist) := by
          simp [slots, updateKeyData_slot]
        refine ⟨?_, ?_, ?_, ?_⟩
        · simpa using hn
        · simpa using hlen
        · rw [hs]
          exact hnd
        · intro s hsm
          rw [hs] at hsm
          exact hbnd s hsm
  · exact ⟨hn, hlen, hnd, hbnd⟩

lemma poolInvP_map_live (live free : List Particle) (n cap : Int)
    (f : Particle → Particle) (hf : ∀ p, (f p).slot = p.slot)
    (h : PoolInvP live free n cap) : PoolInvP (live.map f) free n cap := by
  obtain ⟨h1, h2, h3, h4⟩ := h
  have hs : slots (live.map f ++ free) = slots (live ++ free) := by
    simp [slots, List.map_append, List.map_map, Function.comp, hf]
  refine ⟨by simpa using h1, by simpa using h2, by rw [hs]; exact h3, ?_⟩
  intro s hsm
  rw [hs] at hsm
  exact h4 s hsm

lemma slots_age (ms : Nat) (l : List Particle) :
    slots (l.map (ageParticle ms)) = slots l := by
  simp [slots, List.map_map, Function.comp, ageParticle_slot]

lemma evict_poolInvP (ms : Nat) (live free : List Particle) (n cap : Int)
    (h : PoolInvP live free n cap) :
    PoolInvP ((live.map (ageParticle ms)).filter agekeep)
      (((live.map (ageParticle ms)).filter agedrop).reverse ++ free)
      (n - (((live.map (ageParticle ms)).filter agedrop).length : Int))
      cap := by
  obtain ⟨hn, hlen, hnd, hbnd⟩ := h
  have hc : (live.map (ageParticle ms)).filter agedrop
      = (live.map (ageParticle ms)).filter (fun p => !agekeep p) :=
    List.filter_congr (fun p _ => agedrop_eq_not_agekeep p)
  have hperm0 : List.Perm
      ((live.map (ageParticle ms)).filter agekeep ++
        (live.map (ageParticle ms)).filter agedrop)
      (live.map (ageParticle ms)) := by
    rw [hc]
    exact List.filter_append_perm agekeep _
  have hlenpart : ((live.map (ageParticle ms)).filter agekeep).length +
      ((live.map (ageParticle ms)).filter agedrop).length = live.length := by
    have := hperm0.length_eq
    simpa using this
  have hPslots : List.Perm
      (slots ((live.map (ageParticle ms)).filter agekeep ++
        ((((live.map (ageParticle ms)).filter agedrop).reverse) ++ free)))
      (slots (live ++ free)) := by
    simp only [slots, List.map_append, List.map_reverse]
    refine List.Perm.trans (List.Perm.append_left _
      (List.Perm.append_right _ (List.reverse_perm _))) ?_
    rw [← List.append_assoc, ← List.map_append]
    refine List.Perm.trans (List.Perm.append_right _
      (hperm0.map (fun p => p.slot))) ?_
    have : List.map (fun p => p.slot) (live.map (ageParticle ms)) =
        List.map (fun p => p.slot) live := slots_age ms live
    rw [this]
  refine ⟨?_, ?_, ?_, ?_⟩
  · omega
  · simp only [List.length_append, List.length_reverse]
    push_cast
    omega
  · exact hPslots.symm.nodup hnd
  · intro s hs
    exact hbnd s (hPslots.mem_iff.mp hs)

lemma advanceTime_poolInv (env : Env) (dt : ℚ) (st : GraphEmitter)
    (hinv : PoolInv st) : PoolInv (advanceTime env dt st) := by
  by_cases heps : dt < 1/100000
  · rw [advanceTime_small env dt st heps]
    exact hinv
  · by_cases hdead : st.mDead
    · unfold advanceTime
      rw [if_neg heps, if_pos hdead]
      exact hinv
    · by_cases hms : tickMS dt = 0
      · rw [advanceTime_zero_ms env dt st hms]
        exact hinv
      · have hdead2 : st.mDead = false := by simpa using hdead
        rw [advanceTime_eq env dt st hdead2 heps hms]
        have base := evict_poolInvP (tickMS dt) st.part_list st.part_freelist
          st.n_parts st.n_part_capacity hinv
        simp only [agePass_eq]
        split
        · exact base
        · split
          · exact poolInvP_map_live _ _ _ _ _
              (fun p => updateStep_slot env _ (tickMS dt) p) base
          · exact base

lemma emitLoop_poolInv (env : Env) (node : Option GNode)
    (start end_ axis velocity : Point3) (numMS : Nat) (ρ : Nat → Draw) :
    ∀ fuel k currTime st ps st2 ps2,
      PoolInv st →
      emitLoop env node start end_ axis velocity numMS ρ fuel k currTime st
        ps = some (st2, ps2) →
      PoolInv st2 ∧ st2.mDataBlock = st.mDataBlock ∧ st2.mDead = st.mDead ∧
      st2.mLifetimeMS = st.mLifetimeMS ∧
      st2.mElapsedTimeMS = st.mElapsedTimeMS := by
  intro fuel
  induction fuel with
  | zero =>
    intro k c st ps st2 ps2 hinv hrun
    exact absurd hrun (by simp [emitLoop])
  | succ fuel ih =>
    intro k c st ps st2 ps2 hinv hrun
    rw [emitLoop.eq_def] at hrun
    dsimp only at hrun
    by_cases hcur : c < numMS
    · rw [if_pos hcur] at hrun
      cases node with
      | none => exact absurd hrun (by simp)
      | some nd =>
        dsimp only at hrun
        by_cases hnt : periodDraw nd st.mDataBlock (ρ k) ≤ 0
        · rw [if_pos hnt] at hrun
          exact absurd hrun (by simp)
        · rw [if_neg hnt] at hrun
          by_cases hdefer :
              numMS < c + (periodDraw nd st.mDataBlock (ρ k)).toNat
          · rw [if_pos hdefer] at hrun
            simp only [Option.some.injEq, Prod.mk.injEq] at hrun
            obtain ⟨h1, _⟩ := hrun
            rw [← h1]
            exact ⟨hinv, rfl, rfl, rfl, rfl⟩
          · rw [if_neg hdefer] at hrun
            cases hadd : addParticleWithNode
                {st with mInternalClock := st.mInternalClock +
                  (periodDraw nd st.mDataBlock (ρ k)).toNat}
                (Point3.interpolate start end_
                  (((c + (periodDraw nd st.mDataBlock (ρ k)).toNat : Nat) :
                    ℚ) / (numMS : ℚ)))
                axis velocity axis (some nd) (ρ k) with
            | none =>
              rw [hadd] at hrun
              exact absurd hrun (by simp)
            | some stx =>
              rw [hadd] at hrun
              obtain ⟨hinvx, hdbx, _, hdeadx, hlifex, helx, _⟩ :=
                addParticleWithNode_poolInv
                  {st with mInternalClock := st.mInternalClock +
                    (periodDraw nd st.mDataBlock (ρ k)).toNat}
                  _ _ _ _ _ _ _ hinv hadd
              have hinvc := advanceCollapse_poolInv env
                (numMS - (c + (periodDraw nd st.mDataBlock (ρ k)).toNat)) stx
                hinvx
              obtain ⟨hdbc, _, hdeadc, hlifec, helc⟩ := advanceCollapse_fields
                env (numMS - (c + (periodDraw nd st.mDataBlock (ρ k)).toNat))
                stx
              obtain ⟨hi2, hdb2, hdead2, hlife2, hel2⟩ :=
                ih _ _ _ _ _ _ hinvc hrun
              exact ⟨hi2, by rw [hdb2, hdbc, hdbx],
                by rw [hdead2, hdeadc, hdeadx],
                by rw [hlife2, hlifec, hlifex],
                by rw [hel2, helc, helx]⟩
    · rw [if_neg hcur] at hrun
      simp only [Option.some.injEq, Prod.mk.injEq] at hrun
      obtain ⟨h1, _⟩ := hrun
      rw [← h1]
      exact ⟨hinv, rfl, rfl, rfl, rfl⟩

lemma pendingPhase_poolInv (st : GraphEmitter)
    (start end_ axis velocity : Point3) (numMS : Nat) (node : Option GNode)
    (d : Draw) (hinv : PoolInv st) :
    ∀ r, pendingPhase st start end_ axis velocity numMS node d = some r →
      (∀ st1, r = .deferred st1 →
        PoolInv st1 ∧ st1.mDataBlock = st.mDataBlock ∧
        st1.mDead = st.mDead ∧ st1.mLifetimeMS = st.mLifetimeMS ∧
        st1.mElapsedTimeMS = st.mElapsedTimeMS) ∧
      (∀ st1 c ps, r = .proceed st1 c ps →
        PoolInv st1 ∧ st1.mDataBlock = st.mDataBlock ∧
        st1.mDead = st.mDead ∧ st1.mLifetimeMS = st.mLifetimeMS ∧
        st1.mElapsedTimeMS = st.mElapsedTimeMS) := by
  intro r hr
  unfold pendingPhase at hr
  by_cases h0 : st.mNextParticleTime = 0
  · rw [if_pos h0] at hr
    injection hr with hr
    constructor
    · intro st1 hd
      rw [← hr] at hd
      exact absurd hd (by simp)
    · intro st1 c ps hp
      rw [← hr] at hp
      injection hp with h1 h2 h3
      rw [← h1]
      exact ⟨hinv, rfl, rfl, rfl, rfl⟩
  · rw [if_neg h0] at hr
    by_cases hgt : st.mNextParticleTime > numMS
    · rw [if_pos hgt] at hr
      injection hr with hr
      constructor
      · intro st1 hd
        rw [← hr] at hd
        injection hd with h1
        rw [← h1]
        exact ⟨hinv, rfl, rfl, rfl, rfl⟩
      · intro st1 c ps hp
        rw [← hr] at hp
        exact absurd hp (by simp)
    · rw [if_neg hgt] at hr
      dsimp only at hr
      cases hadd : addParticleWithNode
          {st with mInternalClock :=
            st.mInternalClock + st.mNextParticleTime}
          (Point3.interpolate start end_
            ((st.mNextParticleTime : ℚ) / (numMS : ℚ)))
          axis velocity axis node d with
      | none =>
        rw [hadd] at hr
        exact absurd hr (by simp)
      | some stx =>
        rw [hadd] at hr
        injection hr with hr
        obtain ⟨hinvx, hdbx, _, hdeadx, hlifex, helx, _⟩ :=
          addParticleWithNode_poolInv
            {st with mInternalClock :=
              st.mInternalClock + st.mNextParticleTime}
            _ _ _ _ _ _ _ hinv hadd
        constructor
        · intro st1 hd
          rw [← hr] at hd
          exact absurd hd (by simp)
        · intro st1 c ps hp
          rw [← hr] at hp
          injection hp with h1 h2 h3
          rw [← h1]
          exact ⟨hinvx, hdbx, hdeadx, hlifex, helx⟩

lemma emitParticlesPath_poolInv (env : Env) (st : GraphEmitter)
    (start end_ axis velocity : Point3) (numMS : Nat) (node : Option GNode)
    (ρ : Nat → Draw) (st2 : GraphEmitter) (ps2 : List Point3)
    (hinv : PoolInv st)
    (hsucc : emitParticlesPath env st start end_ axis velocity numMS node ρ =
      some (st2, ps2)) :
    PoolInv st2 ∧ st2.mDataBlock = st.mDataBlock ∧ st2.mDead = st.mDead ∧
    st2.mLifetimeMS = st.mLifetimeMS ∧
    st2.mElapsedTimeMS = st.mElapsedTimeMS := by
  unfold emitParticlesPath at hsucc
  by_cases hd : st.mDead
  · rw [if_pos hd] at hsucc
    simp only [Option.some.injEq, Prod.mk.injEq] at hsucc
    obtain ⟨h1, _⟩ := hsucc
    rw [← h1]
    exact ⟨hinv, rfl, rfl, rfl, rfl⟩
  · rw [if_neg hd] at hsucc
    by_cases he : st.mDataBlock.particleDataBlocks.isEmpty
    · rw [if_pos he] at hsucc
      simp only [Option.some.injEq, Prod.mk.injEq] at hsucc
      obtain ⟨h1, _⟩ := hsucc
      rw [← h1]
      exact ⟨hinv, rfl, rfl, rfl, rfl⟩
    · rw [if_neg he] at hsucc
      by_cases hl : 0 < st.mLifetimeMS ∧ st.mLifetimeMS < st.mElapsedTimeMS
      · rw [if_pos hl] at hsucc
        simp only [Option.some.injEq, Prod.mk.injEq] at hsucc
        obtain ⟨h1, _⟩ := hsucc
        rw [← h1]
        exact ⟨hinv, rfl, rfl, rfl, rfl⟩
      · rw [if_neg hl] at hsucc
        cases hpp : pendingPhase st start end_ axis velocity numMS node
            (ρ 0) with
        | none =>
          rw [hpp] at hsucc
          exact absurd hsucc (by simp)
        | some r =>
          rw [hpp] at hsucc
          have hppinv := pendingPhase_poolInv st start end_ axis velocity
            numMS node (ρ 0) hinv r hpp
          cases r with
          | deferred st1 =>
            dsimp only at hsucc
            simp only [Option.some.injEq, Prod.mk.injEq] at hsucc
            obtain ⟨h1, _⟩ := hsucc
            rw [← h1]
            exact (hppinv.1 st1 rfl)
          | proceed st1 c ps =>
            dsimp only at hsucc
            obtain ⟨hinv1, hdb1, hdead1, hlife1, hel1⟩ :=
              hppinv.2 st1 c ps rfl
            cases hloop : emitLoop env node start end_ axis velocity numMS ρ
                (numMS + 1) 1 c st1 ps with
            | none =>
              rw [hloop] at hsucc
              exact absurd hsucc (by simp)
            | some pr =>
              rw [hloop] at hsucc
              obtain ⟨st3, ps3⟩ := pr
              obtain ⟨hinv3, hdb3, hdead3, hlife3, hel3⟩ :=
                emitLoop_poolInv env node start end_ axis velocity numMS ρ
                  (numMS + 1) 1 c st1 ps st3 ps3 hinv1 hloop
              dsimp only at hsucc
              simp only [Option.some.injEq, Prod.mk.injEq] at hsucc
              obtain ⟨h1, _⟩ := hsucc
              rw [← h1]
              exact ⟨hinv3, by rw [hdb3, hdb1], by rw [hdead3, hdead1],
                by rw [hlife3, hlife1], by rw [hel3, hel1]⟩

lemma emitParticlesPoint_poolInv (env : Env) (st : GraphEmitter)
    (point : Point3) (useLast : Bool) (axis velocity : Point3) (numMS : Nat)
    (ρ : Nat → Draw) (st2 : GraphEmitter) (ps2 : List Point3)
    (hinv : PoolInv st)
    (hsucc : emitParticlesPoint env st point useLast axis velocity numMS ρ =
      some (st2, ps2)) :
    PoolInv st2 ∧ st2.mDataBlock = st.mDataBlock ∧ st2.mDead = st.mDead ∧
    st2.mLifetimeMS = st.mLifetimeMS ∧
    st2.mElapsedTimeMS = st.mElapsedTimeMS := by
  unfold emitParticlesPoint at hsucc
  by_cases hd : st.mDead
  · rw [if_pos hd] at hsucc
    simp only [Option.some.injEq, Prod.mk.injEq] at hsucc
    obtain ⟨h1, _⟩ := hsucc
    rw [← h1]
    exact ⟨hinv, rfl, rfl, rfl, rfl⟩
  · rw [if_neg hd] at hsucc
    by_cases hl : 0 < st.mLifetimeMS ∧ st.mLifetimeMS < st.mElapsedTimeMS
    · rw [if_pos hl] at hsucc
      simp only [Option.some.injEq, Prod.mk.injEq] at hsucc
      obtain ⟨h1, _⟩ := hsucc
      rw [← h1]
      exact ⟨hinv, rfl, rfl, rfl, rfl⟩
    · rw [if_neg hl] at hsucc
      exact emitParticlesPath_poolInv env st _ point axis velocity numMS none
        ρ st2 ps2 hinv hsucc

lemma hemisphereLoop_poolInv (rCenter : Point3) (radius : ℚ)
    (velocity : Point3) (axisx axisy axisz : Point3) (ρ : Nat → Draw) :
    ∀ n i st st2, PoolInv st →
      hemisphereLoop rCenter radius velocity axisx axisy axisz ρ n i st =
        some st2 →
      PoolInv st2 ∧ st2.mDataBlock = st.mDataBlock ∧ st2.mDead = st.mDead ∧
      st2.mLifetimeMS = st.mLifetimeMS ∧
      st2.mElapsedTimeMS = st.mElapsedTimeMS := by
  intro n
  induction n with
  | zero =>
    intro i st st2 hinv hrun
    unfold hemisphereLoop at hrun
    injection hrun with hrun
    rw [← hrun]
    exact ⟨hinv, rfl, rfl, rfl, rfl⟩
  | succ n ih =>
    intro i st st2 hinv hrun
    rw [hemisphereLoop.eq_def] at hrun
    dsimp only at hrun
    cases hadd : addParticle st
        (axisx.scale (radius * (1 - 2 * (ρ i).randF1)) +
          axisy.scale (radius * (1 - 2 * (ρ i).randF2)) +
          axisz.scale (radius * (ρ i).randF3) + rCenter)
        (axisx.scale (radius * (1 - 2 * (ρ i).randF1)) +
          axisy.scale (radius * (1 - 2 * (ρ i).randF2)) +
          axisz.scale (radius * (ρ i).randF3))
        velocity axisz (ρ i) with
    | none =>
      rw [hadd] at hrun
      exact absurd hrun (by simp)
    | some stx =>
      rw [hadd] at hrun
      obtain ⟨hinvx, hdbx, _, hdeadx, hlifex, helx, _⟩ :=
        addParticle_poolInv st _ _ _ _ _ stx hinv hadd
      obtain ⟨hi2, hdb2, hdead2, hlife2, hel2⟩ := ih _ _ _ hinvx hrun
      exact ⟨hi2, by rw [hdb2, hdbx], by rw [hdead2, hdeadx],
        by rw [hlife2, hlifex], by rw [hel2, helx]⟩

lemma emitParticlesHemisphere_poolInv (st : GraphEmitter)
    (rCenter rNormal : Point3) (radius : ℚ) (velocity : Point3) (count : Int)
    (axisx axisy axisz : Point3) (ρ : Nat → Draw) (st2 : GraphEmitter)
    (hinv : PoolInv st)
    (hsucc : emitParticlesHemisphere st rCenter rNormal radius velocity count
      axisx axisy axisz ρ = some st2) : PoolInv st2 := by
  unfold emitParticlesHemisphere at hsucc
  by_cases hd : st.mDead
  · rw [if_pos hd] at hsucc
    injection hsucc with h
    rw [← h]
    exact hinv
  · rw [if_neg hd] at hsucc
    by_cases hl : 0 < st.mLifetimeMS ∧ st.mLifetimeMS < st.mElapsedTimeMS
    · rw [if_pos hl] at hsucc
      injection hsucc with h
      rw [← h]
      exact hinv
    · rw [if_neg hl] at hsucc
      cases hloop : hemisphereLoop rCenter radius velocity axisx axisy axisz
          ρ count.toNat 0 st with
      | none =>
        rw [hloop] at hsucc
        exact absurd hsucc (by simp)
      | some stx =>
        rw [hloop] at hsucc
        injection hsucc with h
        rw [← h]
        exact (hemisphereLoop_poolInv rCenter radius velocity axisx axisy
          axisz ρ count.toNat 0 st stx hinv hloop).1

lemma applyOp_poolInv (st : GraphEmitter) (op : Op) (st2 : GraphEmitter)
    (hinv : PoolInv st) (hsucc : applyOp st op = some st2) : PoolInv st2 := by
  cases op with
  | opAddParticle pos axis vel axisx d =>
    exact (addParticle_poolInv st pos axis vel axisx d st2 hinv hsucc).1
  | opAddParticleWithNode pos axis vel axisx node d =>
    exact (addParticleWithNode_poolInv st pos axis vel axisx node d st2 hinv
      hsucc).1
  | opEmitPath env s e a v n node ρ =>
    unfold applyOp at hsucc
    dsimp only at hsucc
    cases hrun : emitParticlesPath env st s e a v n node ρ with
    | none =>
      rw [hrun] at hsucc
      exact absurd hsucc (by simp)
    | some pr =>
      obtain ⟨stx, psx⟩ := pr
      rw [hrun] at hsucc
      simp at hsucc
      rw [← hsucc]
      exact (emitParticlesPath_poolInv env st s e a v n node ρ stx psx hinv
        hrun).1
  | opEmitPoint env p u a v n ρ =>
    unfold applyOp at hsucc
    dsimp only at hsucc
    cases hrun : emitParticlesPoint env st p u a v n ρ with
    | none =>
      rw [hrun] at hsucc
      exact absurd hsucc (by simp)
    | some pr =>
      obtain ⟨stx, psx⟩ := pr
      rw [hrun] at hsucc
      simp at hsucc
      rw [← hsucc]
      exact (emitParticlesPoint_poolInv env st p u a v n ρ stx psx hinv
        hrun).1
  | opEmitHemisphere c nrm r v cnt ax ay az ρ =>
    exact emitParticlesHemisphere_poolInv st c nrm r v cnt ax ay az ρ st2
      hinv hsucc
  | opAdvanceTime env dt =>
    unfold applyOp at hsucc
    dsimp only at hsucc
    injection hsucc with h
    rw [← h]
    exact advanceTime_poolInv env dt st hinv

lemma runOps_poolInv (ops : List Op) :
    ∀ st st2, PoolInv st → runOps st ops = some st2 → PoolInv st2 := by
  induction ops with
  | nil =>
    intro st st2 hinv hrun
    unfold runOps at hrun
    injection hrun with h
    rw [← h]
    exact hinv
  | cons op rest ih =>
    intro st st2 hinv hrun
    unfold runOps at hrun
    cases hop : applyOp st op with
    | none =>
      rw [hop] at hrun
      exact absurd hrun (by simp)
    | some stx =>
      rw [hop] at hrun
      exact ih stx st2 (applyOp_poolInv st op stx hinv hop) hrun

/-- C1: pool conservation and disjointness.  Starting from any state
satisfying the pool invariant, after any sequence of operations — direct
`addParticle` allocations, the three `emitParticles` entry points (which
allocate and may release through the advance-collapse rule) and
`advanceTime` (which releases through age eviction) — that completes without
undefined behaviour, the invariant still holds: the live count `n_parts`
plus the free-list length equals the allocated capacity `n_part_capacity`,
no slot appears on the free list more than once, and no slot is
simultaneously on the live list and the free list.  Since the operation
sequence is arbitrary, this holds at every observation point between
operations. -/
theorem C1_pool_conservation_disjoint (st : GraphEmitter) (ops : List Op)
    (st2 : GraphEmitter) (hinv : PoolInv st)
    (hrun : runOps st ops = some st2) :
    PoolInv st2 ∧
    st2.n_parts + (st2.part_freelist.length : Int) = st2.n_part_capacity ∧
    (slots st2.part_freelist).Nodup ∧
    (∀ s ∈ slots st2.part_list, s ∉ slots st2.part_freelist) := by
  have hinv2 := runOps_poolInv ops st st2 hinv hrun
  obtain ⟨hn, hlen, hnd, hbnd⟩ := hinv2
  have hsplitnd : (slots st2.part_list ++ slots st2.part_freelist).Nodup := by
    have : slots (st2.part_list ++ st2.part_freelist) =
        slots st2.part_list ++ slots st2.part_freelist := by
      simp [slots]
    rw [this] at hnd
    exact hnd
  refine ⟨⟨hn, hlen, hnd, hbnd⟩, by omega, ?_, ?_⟩
  · exact (List.nodup_append.mp hsplitnd).2.1
  · exact (List.nodup_append.mp hsplitnd).2.2

/-- C1 witness: from the fixture emitter, one direct allocation followed by
a two-particle hemisphere burst; the invariant and the conservation law hold
afterwards. -/
theorem C1_witness :
    PoolInv wst0 ∧
    ∃ st2, runOps wst0
        [Op.opAddParticle Point3.zero ⟨0, 0, 1⟩ Point3.zero ⟨1, 0, 0⟩ wdraw,
         Op.opEmitHemisphere Point3.zero ⟨0, 0, 1⟩ 1 Point3.zero 2
           ⟨1, 0, 0⟩ ⟨0, 1, 0⟩ ⟨0, 0, 1⟩ (fun _ => wdraw)] = some st2 ∧
      PoolInv st2 ∧
      st2.n_parts + (st2.part_freelist.length : Int) =
        st2.n_part_capacity := by
  have h0 : PoolInv wst0 := by
    unfold PoolInv PoolInvP
    refine ⟨by decide, by decide, by decide, by decide⟩
  have hs : (runOps wst0
      [Op.opAddParticle Point3.zero ⟨0, 0, 1⟩ Point3.zero ⟨1, 0, 0⟩ wdraw,
       Op.opEmitHemisphere Point3.zero ⟨0, 0, 1⟩ 1 Point3.zero 2
         ⟨1, 0, 0⟩ ⟨0, 1, 0⟩ ⟨0, 0, 1⟩ (fun _ => wdraw)]).isSome = true := by
    rfl
  refine ⟨h0, (runOps wst0 _).get hs, (Option.some_get hs).symm, ?_, ?_⟩
  · exact (C1_pool_conservation_disjoint wst0 _ _ h0
      (Option.some_get hs).symm).1
  · exact (C1_pool_conservation_disjoint wst0 _ _ h0
      (Option.some_get hs).symm).2.1

lemma emitLoop_const_count (env : Env) (start end_ axis velocity : Point3)
    (numMS : Nat) (ρ : Nat → Draw) (nd : GNode) (P : Int) (hPpos : 0 < P) :
    ∀ fuel currTime k st ps,
      numMS - currTime < fuel →
      effPeriod nd st.mDataBlock = P →
      effVariance nd st.mDataBlock = 0 →
      st.mDataBlock.particleDataBlocks ≠ [] →
      st.mNextParticleTime = 0 →
      PoolInv st →
      ∃ st2 qs,
        emitLoop env (some nd) start end_ axis velocity numMS ρ fuel k
          currTime st ps = some (st2, ps ++ qs) ∧
        qs.length = (numMS - currTime) / P.toNat ∧
        st2.mNextParticleTime =
          (if (numMS - currTime) % P.toNat = 0 then 0
            else P.toNat - (numMS - currTime) % P.toNat) ∧
        PoolInv st2 ∧ st2.mDataBlock = st.mDataBlock ∧
        st2.mDead = st.mDead ∧ st2.mLifetimeMS = st.mLifetimeMS ∧
        st2.mElapsedTimeMS = st.mElapsedTimeMS := by
  intro fuel
  induction fuel with
  | zero =>
    intro c k st ps hfuel hP hvar htmpl hpend hinv
    exact absurd hfuel (by omega)
  | succ fuel ih =>
    intro c k st ps hfuel hP hvar htmpl hpend hinv
    rw [emitLoop.eq_def]
    dsimp only
    by_cases hcur : c < numMS
    · rw [if_pos hcur]
      have hdraw : periodDraw nd st.mDataBlock (ρ k) = P := by
        rw [periodDraw_const nd st.mDataBlock (ρ k) hvar, hP]
      rw [hdraw, if_neg (by omega : ¬ P ≤ 0)]
      by_cases hdef : numMS < c + P.toNat
      · rw [if_pos hdef]
        refine ⟨{ st with
            mNextParticleTime := c + P.toNat - numMS,
            mInternalClock := st.mInternalClock + (numMS - c) }, [],
          by rw [List.append_nil], ?_, ?_, hinv, rfl, rfl, rfl, rfl⟩
        · simp [Nat.div_eq_of_lt (show numMS - c < P.toNat by omega)]
        · rw [Nat.mod_eq_of_lt (show numMS - c < P.toNat by omega)]
          rw [if_neg (by omega : ¬ numMS - c = 0)]
          show c + P.toNat - numMS = P.toNat - (numMS - c)
          omega
      · rw [if_neg hdef]
        obtain ⟨stx, hadd⟩ := addParticleWithNode_some
          {st with mInternalClock := st.mInternalClock + P.toNat}
          (Point3.interpolate start end_
            (((c + P.toNat : Nat) : ℚ) / (numMS : ℚ)))
          axis velocity axis nd (ρ k) hinv htmpl
        rw [hadd]
        dsimp only
        obtain ⟨hinvx, hdbx, hpendx, hdeadx, hlifex, helx, _⟩ :=
          addParticleWithNode_poolInv
            {st with mInternalClock := st.mInternalClock + P.toNat}
            _ _ _ _ _ _ stx hinv hadd
        have hinvc := advanceCollapse_poolInv env (numMS - (c + P.toNat)) stx
          hinvx
        obtain ⟨hdbc, hpendc, hdeadc, hlifec, helc⟩ :=
          advanceCollapse_fields env (numMS - (c + P.toNat)) stx
        obtain ⟨st2, qs, hloop, hqlen, hqpend, hqinv, hqdb, hqdead, hqlife,
            hqel⟩ :=
          ih (c + P.toNat) (k + 1)
            (advanceCollapse env (numMS - (c + P.toNat)) stx)
            (ps ++ [Point3.interpolate start end_
              (((c + P.toNat : Nat) : ℚ) / (numMS : ℚ))])
            (by omega)
            (by rw [hdbc, hdbx]; exact hP)
            (by rw [hdbc, hdbx]; exact hvar)
            (by rw [hdbc, hdbx]; exact htmpl)
            (by rw [hpendc, hpendx]; exact hpend)
            hinvc
        refine ⟨st2, Point3.interpolate start end_
            (((c + P.toNat : Nat) : ℚ) / (numMS : ℚ)) :: qs, ?_, ?_, ?_,
          hqinv, ?_, ?_, ?_, ?_⟩
        · rw [hloop]
          simp
        · rw [List.length_cons, hqlen,
            Nat.div_eq_sub_div (by omega : 0 < P.toNat)
              (by omega : P.toNat ≤ numMS - c),
            show numMS - c - P.toNat = numMS - (c + P.toNat) by omega]
        · rw [hqpend,
            show numMS - c = (numMS - (c + P.toNat)) + P.toNat by omega,
            Nat.add_mod_right]
        · rw [hqdb, hdbc, hdbx]
        · rw [hqdead, hdeadc, hdeadx]
        · rw [hqlife, hlifec, hlifex]
        · rw [hqel, helc, helx]
    · rw [if_neg hcur]
      refine ⟨st, [], by rw [List.append_nil], ?_, ?_, hinv, rfl, rfl, rfl,
        rfl⟩
      · simp [Nat.sub_eq_zero_of_le (le_of_not_lt hcur)]
      · rw [Nat.sub_eq_zero_of_le (le_of_not_lt hcur)]
        simpa using hpend

/-- C3: spawn-count determinism with zero period variance.  On a live,
time-boxed-open emitter with bound templates, constant effective period
`P > 0` and zero variance, a path-segment call of duration `numMS` with no
pending sub-period spawns exactly `numMS / P` particles (integer division)
and carries over exactly one remainder, `P - numMS % P`, as the new pending
sub-period (zero when `P` divides `numMS`); a call with a nonzero pending
sub-period `c ≤ numMS` first consumes it with one spawn and then spawns
`(numMS - c) / P` more, carrying `P - (numMS - c) % P` analogously. -/
theorem C3_spawn_count_determinism (env : Env) (st : GraphEmitter)
    (start end_ axis velocity : Point3) (numMS : Nat) (nd : GNode)
    (ρ : Nat → Draw) (P : Int)
    (hdead : st.mDead = false)
    (htmpl : st.mDataBlock.particleDataBlocks ≠ [])
    (hlife : ¬ (0 < st.mLifetimeMS ∧ st.mLifetimeMS < st.mElapsedTimeMS))
    (hP : effPeriod nd st.mDataBlock = P)
    (hvar : effVariance nd st.mDataBlock = 0)
    (hPpos : 0 < P) (hinv : PoolInv st) :
    (st.mNextParticleTime = 0 →
      ∃ st2 ps,
        emitParticlesPath env st start end_ axis velocity numMS (some nd) ρ =
          some (st2, ps) ∧
        ps.length = numMS / P.toNat ∧
        st2.mNextParticleTime =
          (if numMS % P.toNat = 0 then 0 else P.toNat - numMS % P.toNat) ∧
        PoolInv st2 ∧ st2.mDataBlock = st.mDataBlock ∧
        st2.mDead = false ∧ st2.mLifetimeMS = st.mLifetimeMS ∧
        st2.mElapsedTimeMS = st.mElapsedTimeMS) ∧
    (st.mNextParticleTime ≠ 0 → st.mNextParticleTime ≤ numMS →
      ∃ st2 ps,
        emitParticlesPath env st start end_ axis velocity numMS (some nd) ρ =
          some (st2, ps) ∧
        ps.length = 1 + (numMS - st.mNextParticleTime) / P.toNat ∧
        st2.mNextParticleTime =
          (if (numMS - st.mNextParticleTime) % P.toNat = 0 then 0
            else P.toNat - (numMS - st.mNextParticleTime) % P.toNat) ∧
        PoolInv st2 ∧ st2.mDataBlock = st.mDataBlock ∧
        st2.mDead = false ∧ st2.mLifetimeMS = st.mLifetimeMS ∧
        st2.mElapsedTimeMS = st.mElapsedTimeMS) := by
  have htmplE : st.mDataBlock.particleDataBlocks.isEmpty = false := by
    cases hb : st.mDataBlock.particleDataBlocks with
    | nil => exact absurd hb htmpl
    | cons b bs => rfl
  constructor
  · intro hpend0
    have hpp : pendingPhase st start end_ axis velocity numMS (some nd)
        (ρ 0) = some (.proceed st 0 []) := by
      unfold pendingPhase
      rw [if_pos hpend0]
    obtain ⟨st3, qs, hloop, hqlen, hqpend, hqinv, hqdb, hqdead, hqlife,
        hqel⟩ :=
      emitLoop_const_count env start end_ axis velocity numMS ρ nd P hPpos
        (numMS + 1) 0 1 st [] (by omega) hP hvar htmpl hpend0 hinv
    rw [List.nil_append] at hloop
    refine ⟨{ st3 with mLastPosition := end_, mHasLastPosition := true },
      qs, ?_, by simpa using hqlen, by simpa using hqpend, hqinv, hqdb,
      hqdead.trans hdead, hqlife, hqel⟩
    unfold emitParticlesPath
    rw [hdead]
    simp only [Bool.false_eq_true, if_false]
    rw [htmplE]
    simp only [Bool.false_eq_true, if_false]
    rw [if_neg hlife, hpp]
    dsimp only
    rw [hloop]
  · intro hpend hle
    obtain ⟨stx, hadd⟩ := addParticleWithNode_some
      {st with mInternalClock := st.mInternalClock + st.mNextParticleTime}
      (Point3.interpolate start end_
        ((st.mNextParticleTime : ℚ) / (numMS : ℚ)))
      axis velocity axis nd (ρ 0) hinv htmpl
    obtain ⟨hinvx, hdbx, hpendx, hdeadx, hlifex, helx, _⟩ :=
      addParticleWithNode_poolInv
        {st with mInternalClock := st.mInternalClock + st.mNextParticleTime}
        _ _ _ _ _ _ stx hinv hadd
    have hpp : pendingPhase st start end_ axis velocity numMS (some nd)
        (ρ 0) = some (.proceed {stx with mNextParticleTime := 0}
          st.mNextParticleTime
          [Point3.interpolate start end_
            ((st.mNextParticleTime : ℚ) / (numMS : ℚ))]) := by
      unfold pendingPhase
      rw [if_neg hpend, if_neg (not_lt.mpr hle)]
      dsimp only
      rw [hadd]
    obtain ⟨st3, qs, hloop, hqlen, hqpend, hqinv, hqdb, hqdead, hqlife,
        hqel⟩ :=
      emitLoop_const_count env start end_ axis velocity numMS ρ nd P hPpos
        (numMS + 1) st.mNextParticleTime 1 {stx with mNextParticleTime := 0}
        [Point3.interpolate start end_
          ((st.mNextParticleTime : ℚ) / (numMS : ℚ))]
        (by omega)
        (by
          show effPeriod nd stx.mDataBlock = P
          rw [hdbx]
          exact hP)
        (by
          show effVariance nd stx.mDataBlock = 0
          rw [hdbx]
          exact hvar)
        (by
          show stx.mDataBlock.particleDataBlocks ≠ []
          rw [hdbx]
          exact htmpl)
        rfl hinvx
    have hdb3 : st3.mDataBlock = st.mDataBlock := hqdb.trans hdbx
    have hdead3 : st3.mDead = false := (hqdead.trans hdeadx).trans hdead
    have hlife3 : st3.mLifetimeMS = st.mLifetimeMS := hqlife.trans hlifex
    have hel3 : st3.mElapsedTimeMS = st.mElapsedTimeMS := hqel.trans helx
    refine ⟨{ st3 with mLastPosition := end_, mHasLastPosition := true },
      Point3.interpolate start end_
        ((st.mNextParticleTime : ℚ) / (numMS : ℚ)) :: qs, ?_, ?_, hqpend,
      hqinv, hdb3, hdead3, hlife3, hel3⟩
    · unfold emitParticlesPath
      rw [hdead]
      simp only [Bool.false_eq_true, if_false]
      rw [htmplE]
      simp only [Bool.false_eq_true, if_false]
      rw [if_neg hlife, hpp]
      dsimp only
      rw [hloop]
      simp
    · simp only [List.length_cons, hqlen]
      omega

/-- C3 witness: the concrete scenario.  Period 100 ms, variance 0: a 250 ms
segment call with no pending time spawns exactly 2 particles and leaves a
50 ms pending sub-period; the following 100 ms call spawns exactly 1
particle (consuming the pending time) and leaves a new 50 ms pending
sub-period. -/
theorem C3_witness :
    ∃ st2 ps st3 ps2,
      emitParticlesPath wenv wst0 Point3.zero ⟨1, 0, 0⟩ ⟨0, 0, 1⟩
        Point3.zero 250 (some wnode) (fun _ => wdraw) = some (st2, ps) ∧
      ps.length = 2 ∧ st2.mNextParticleTime = 50 ∧
      emitParticlesPath wenv st2 Point3.zero ⟨1, 0, 0⟩ ⟨0, 0, 1⟩
        Point3.zero 100 (some wnode) (fun _ => wdraw) = some (st3, ps2) ∧
      ps2.length = 1 ∧ st3.mNextParticleTime = 50 := by
  have hinv0 : PoolInv wst0 := by
    unfold PoolInv PoolInvP
    refine ⟨by decide, by decide, by decide, by decide⟩
  have htmpl0 : wst0.mDataBlock.particleDataBlocks ≠ [] :=
    List.cons_ne_nil _ _
  have h1 := (C3_spawn_count_determinism wenv wst0 Point3.zero ⟨1, 0, 0⟩
    ⟨0, 0, 1⟩ Point3.zero 250 wnode (fun _ => wdraw) 100 rfl htmpl0
    (by decide) rfl rfl (by decide) hinv0).1 rfl
  obtain ⟨st2, ps, hc1, hlen1, hpend1, hinv2, hdb2, hdead2, hlife2, hel2⟩ :=
    h1
  have hlen1x : ps.length = 2 := by
    rw [hlen1]
    decide
  have hpend1x : st2.mNextParticleTime = 50 := by
    rw [hpend1]
    decide
  have h2 := (C3_spawn_count_determinism wenv st2 Point3.zero ⟨1, 0, 0⟩
    ⟨0, 0, 1⟩ Point3.zero 100 wnode (fun _ => wdraw) 100 hdead2
    (by rw [hdb2]; exact htmpl0)
    (by rw [hlife2, hel2]; decide)
    (by rw [hdb2]; rfl)
    (by rw [hdb2]; rfl)
    (by decide) hinv2).2
    (by rw [hpend1x]; decide)
    (by rw [hpend1x]; decide)
  obtain ⟨st3, ps2, hc2, hlen2, hpend2, _, _, _, _, _⟩ := h2
  refine ⟨st2, ps, st3, ps2, hc1, hlen1x, hpend1x, hc2, ?_, ?_⟩
  · rw [hlen2, hpend1x]
    decide
  · rw [hpend2, hpend1x]
    decide
